import Mathlib

/-!
Verification development for the logos inbound content ingestion and
deduplication pipeline.  Go source files are shallowly embedded as
executable Lean definitions: Go byte slices become `List Nat` (each entry
a byte value), Go strings become Lean `String` with explicit UTF-8
encoding wherever the Go code performs byte-level operations, fallible
calls return `Except String` or carry an `Option String` error component
exactly as the Go multi-value returns do, and database state is passed
explicitly through a `DB` record.  External collaborators (pandoc, the
readability extractor, address and date parsing from the enmime library)
are modelled as injected capabilities, mirroring how the Go structs hold
them as fields.
-/

set_option maxRecDepth 100000

namespace Logos

/-! ## Byte-level string model

Go strings are byte slices; `[]rune(s)` decodes UTF-8.  We keep Lean
`String` for Go strings and make the byte view explicit through a UTF-8
encoder, so that byte-indexed operations (`len`, `strings.LastIndex`)
can be embedded faithfully. -/

/-- UTF-8 encoding of a single unicode scalar value, as byte values. -/
def utf8EncodeChar (n : Nat) : List Nat :=
  if n < 128 then [n]
  else if n < 2048 then [192 + n / 64, 128 + n % 64]
  else if n < 65536 then [224 + n / 4096, 128 + (n / 64) % 64, 128 + n % 64]
  else [240 + n / 262144, 128 + (n / 4096) % 64, 128 + (n / 64) % 64, 128 + n % 64]

/-- UTF-8 encoding of a character list. -/
def utf8EncodeChars (cs : List Char) : List Nat :=
  (cs.map (fun c => utf8EncodeChar c.toNat)).flatten

/-- Byte view of a Go string (UTF-8 bytes). -/
def strBytes (s : String) : List Nat :=
  utf8EncodeChars s.data

/-- Embeds the Go builtin `len` on strings: the UTF-8 byte length. -/
def goLen (s : String) : Nat :=
  (strBytes s).length

/-! ## SHA-256 (embedding of `webutil.GenerateHash`, which uses crypto/sha256)

Machine words are `Nat` reduced mod 2^32 explicitly. -/

/-- Reduce a natural number to a 32-bit word. -/
def w32 (n : Nat) : Nat := n % 4294967296

/-- Bitwise complement within 32 bits. -/
def compl32 (x : Nat) : Nat := 4294967295 - x

/-- Rotate a 32-bit word right by n bits. -/
def rotr (n x : Nat) : Nat := w32 ((x >>> n) ||| (x <<< (32 - n)))

def sha.ch (x y z : Nat) : Nat := (x &&& y) ^^^ (compl32 x &&& z)

def sha.maj (x y z : Nat) : Nat := (x &&& y) ^^^ (x &&& z) ^^^ (y &&& z)

def sha.bsig0 (x : Nat) : Nat := rotr 2 x ^^^ rotr 13 x ^^^ rotr 22 x

def sha.bsig1 (x : Nat) : Nat := rotr 6 x ^^^ rotr 11 x ^^^ rotr 25 x

def sha.ssig0 (x : Nat) : Nat := rotr 7 x ^^^ rotr 18 x ^^^ (x >>> 3)

def sha.ssig1 (x : Nat) : Nat := rotr 17 x ^^^ rotr 19 x ^^^ (x >>> 10)

/-- The 64 SHA-256 round constants. -/
def sha.k : List Nat :=
  [1116352408, 1899447441, 3049323471, 3921009573, 961987163, 1508970993,
   2453635748, 2870763221, 3624381080, 310598401, 607225278, 1426881987,
   1925078388, 2162078206, 2614888103, 3248222580, 3835390401, 4022224774,
   264347078, 604807628, 770255983, 1249150122, 1555081692, 1996064986,
   2554220882, 2821834349, 2952996808, 3210313671, 3336571891, 3584528711,
   113926993, 338241895, 666307205, 773529912, 1294757372, 1396182291,
   1695183700, 1986661051, 2177026350, 2456956037, 2730485921, 2820302411,
   3259730800, 3345764771, 3516065817, 3600352804, 4094571909, 275423344,
   430227734, 506948616, 659060556, 883997877, 958139571, 1322822218,
   1537002063, 1747873779, 1955562222, 2024104815, 2227730452, 2361852424,
   2428436474, 2756734187, 3204031479, 3329325298]

/-- Working state of the compression function: eight 32-bit words. -/
structure Hash8 where
  a : Nat
  b : Nat
  c : Nat
  d : Nat
  e : Nat
  f : Nat
  g : Nat
  h : Nat
deriving Repr, DecidableEq

/-- Initial SHA-256 hash state. -/
def sha.h0 : Hash8 :=
  ⟨1779033703, 3144134277, 1013904242, 2773480762, 1359893119, 2600822924, 528734635, 1541459225⟩

/-- Big-endian 4-byte serialization of a 32-bit word. -/
def be4 (w : Nat) : List Nat :=
  [(w >>> 24) % 256, (w >>> 16) % 256, (w >>> 8) % 256, w % 256]

/-- Big-endian 8-byte serialization of a 64-bit value. -/
def be8 (n : Nat) : List Nat :=
  [(n >>> 56) % 256, (n >>> 48) % 256, (n >>> 40) % 256, (n >>> 32) % 256,
   (n >>> 24) % 256, (n >>> 16) % 256, (n >>> 8) % 256, n % 256]

/-- SHA-256 message padding: append 0x80, zeros, and the bit length. -/
def sha.pad (m : List Nat) : List Nat :=
  let l := m.length
  let zeros := (64 + 56 - ((l + 1) % 64)) % 64
  m ++ [0x80] ++ List.replicate zeros 0 ++ be8 (8 * l)

/-- Worker for `chunksOf`, structurally recursive on a fuel argument that
bounds the list length so the kernel can evaluate it. -/
def chunksOfAux (n : Nat) : Nat → List Nat → List (List Nat)
  | 0, _ => []
  | _, [] => []
  | fuel + 1, l => l.take n :: chunksOfAux n fuel (l.drop n)

/-- Split a byte list into chunks of a given positive size. -/
def chunksOf (n : Nat) (l : List Nat) : List (List Nat) :=
  if n = 0 then [] else chunksOfAux n l.length l

/-- Combine four bytes into a big-endian 32-bit word. -/
def beWord (bs : List Nat) : Nat :=
  bs.foldl (fun acc b => acc * 256 + b) 0

/-- One extension step of the SHA-256 message schedule. -/
def sha.schedStep (w : List Nat) : List Nat :=
  let t := w.length
  w ++ [w32 (sha.ssig1 (w.getD (t - 2) 0) + w.getD (t - 7) 0 +
             sha.ssig0 (w.getD (t - 15) 0) + w.getD (t - 16) 0)]

/-- Full 64-word message schedule of a 64-byte block. -/
def sha.schedule (block : List Nat) : List Nat :=
  sha.schedStep^[48] ((chunksOf 4 block).map beWord)

/-- One round of the SHA-256 compression function. -/
def sha.round (st : Hash8) (ki wi : Nat) : Hash8 :=
  let t1 := w32 (st.h + sha.bsig1 st.e + sha.ch st.e st.f st.g + ki + wi)
  let t2 := w32 (sha.bsig0 st.a + sha.maj st.a st.b st.c)
  ⟨w32 (t1 + t2), st.a, st.b, st.c, w32 (st.d + t1), st.e, st.f, st.g⟩

/-- Process one 64-byte block. -/
def sha.compress (st : Hash8) (block : List Nat) : Hash8 :=
  let w := sha.schedule block
  let fin := (sha.k.zip w).foldl (fun s p => sha.round s p.1 p.2) st
  ⟨w32 (st.a + fin.a), w32 (st.b + fin.b), w32 (st.c + fin.c), w32 (st.d + fin.d),
   w32 (st.e + fin.e), w32 (st.f + fin.f), w32 (st.g + fin.g), w32 (st.h + fin.h)⟩

/-- Serialize the final state to the 32 digest bytes. -/
def sha.digestBytes (st : Hash8) : List Nat :=
  be4 st.a ++ be4 st.b ++ be4 st.c ++ be4 st.d ++ be4 st.e ++ be4 st.f ++ be4 st.g ++ be4 st.h

/-- SHA-256 digest (32 bytes) of a byte list. -/
def sha256Bytes (m : List Nat) : List Nat :=
  sha.digestBytes (((chunksOf 64 (sha.pad m))).foldl sha.compress sha.h0)

/-- Lower-case hexadecimal digit character. -/
def hexDigit (n : Nat) : Char :=
  if n < 10 then Char.ofNat (48 + n) else Char.ofNat (87 + n)

/-- Lower-case hexadecimal rendering of a byte list, two digits per byte. -/
def hexString (bs : List Nat) : String :=
  String.mk ((bs.map (fun b => [hexDigit (b / 16), hexDigit (b % 16)])).flatten)

/-- Embeds `webutil.GenerateHash`: the SHA-256 digest of the input bytes as
a 64-character lower-case hexadecimal string.  The Go version can in theory
return an error from the hasher interface, but the sha256 writer never
fails, so the embedding is total. -/
def GenerateHash (data : List Nat) : String :=
  hexString (sha256Bytes data)

/-- GenerateHash applied to the UTF-8 bytes of a Go string, matching the
call sites that hash a string value. -/
def generateHashStr (s : String) : String :=
  GenerateHash (strBytes s)

/-- Sanity check of the SHA-256 embedding against the standard test vector
for the three-byte message abc. -/
theorem sha256_test_vector :
    generateHashStr "abc" =
      "ba7816bf8f01cfea414140de5dae2223b00361a396177a9cb410ff61f20015ad" := by
  decide

/-! ## Data model (`models/reading.go`, `models/source.go`, db tables) -/

/-- Embeds `models.ReadingFormat`.  The Go type is a string; the eight
declared constants form a closed set, modelled as an enumeration. -/
inductive ReadingFormat where
  | html
  | pdf
  | epub
  | mobi
  | txt
  | md
  | docx
  | rtf
deriving Repr, DecidableEq, BEq

/-- String value of a `ReadingFormat` constant, as declared in models. -/
def ReadingFormat.str : ReadingFormat → String
  | .html => "html"
  | .pdf => "pdf"
  | .epub => "epub"
  | .mobi => "mobi"
  | .txt => "txt"
  | .md => "md"
  | .docx => "docx"
  | .rtf => "rtf"

/-- Embeds `models.Reading`.  Times are abstract instants (`Nat`); the
content body is kept as raw bytes (Go stores them in a string). -/
structure Reading where
  id : String
  sourceID : String
  author : String
  createdAt : Nat
  contentHash : String
  contentBody : List Nat
  excerpt : String
  publishedAt : Option Nat
  storagePath : String
  title : String
  format : ReadingFormat
deriving Repr, DecidableEq

/-- Row of the readings table: exactly the ten columns named in the
INSERT of `ReadingRepository.CreateReading` (the content body is not
one of them). -/
structure ReadingRow where
  id : String
  sourceID : String
  author : String
  createdAt : Nat
  contentHash : String
  excerpt : String
  format : String
  publishedAt : Option Nat
  storagePath : String
  title : String
deriving Repr, DecidableEq

/-- Columns inserted by `CreateReading` for a given reading value. -/
def Reading.toRow (r : Reading) : ReadingRow :=
  ⟨r.id, r.sourceID, r.author, r.createdAt, r.contentHash, r.excerpt,
   r.format.str, r.publishedAt, r.storagePath, r.title⟩

/-- Embeds `models.ReadingSource`. -/
structure ReadingSource where
  id : String
  createdAt : Nat
  name : String
  type : String
  identifier : String
deriving Repr, DecidableEq

/-- Row of the user_readings join table. -/
structure UserReadingRow where
  userId : String
  readingId : String
  createdAt : Nat
  receivedAt : Nat
deriving Repr, DecidableEq

/-- Persistent state touched by the pipeline: the three tables the
repositories read and write. -/
structure DB where
  readings : List ReadingRow
  userReadings : List UserReadingRow
  sources : List ReadingSource
deriving Repr, DecidableEq

/-! ## UUID parsing (google/uuid `Parse`, used by the repositories) -/

/-- Hexadecimal digit test matching the uuid library xvalues table. -/
def isHexChar (c : Char) : Bool :=
  (48 ≤ c.toNat && c.toNat ≤ 57) || (97 ≤ c.toNat && c.toNat ≤ 102) ||
    (65 ≤ c.toNat && c.toNat ≤ 70)

/-- Canonical 8-4-4-4-12 UUID layout check over 36 characters. -/
def uuidCanonicalOk (cs : List Char) : Bool :=
  cs.length = 36 &&
    (List.range 36).all (fun i =>
      if i = 8 || i = 13 || i = 18 || i = 23 then cs.getD i ' ' == '-'
      else isHexChar (cs.getD i ' '))

/-- ASCII lower-casing of one character. -/
def asciiLowerChar (c : Char) : Char :=
  if 65 ≤ c.toNat && c.toNat ≤ 90 then Char.ofNat (c.toNat + 32) else c

/-- ASCII lower-casing of a string (model of `strings.ToLower` for the
ASCII inputs the pipeline deals in). -/
def asciiLower (s : String) : String :=
  String.mk (s.data.map asciiLowerChar)

/-- ASCII upper-casing of one character. -/
def asciiUpperChar (c : Char) : Char :=
  if 97 ≤ c.toNat && c.toNat ≤ 122 then Char.ofNat (c.toNat - 32) else c

/-- ASCII upper-casing of a string (model of `strings.ToUpper`). -/
def asciiUpper (s : String) : String :=
  String.mk (s.data.map asciiUpperChar)

/-- Embeds acceptance of the google/uuid `Parse` function: canonical
36-character form, urn:uuid: prefixed form, braced form, or 32 plain
hexadecimal digits. -/
def uuidParseOk (s : String) : Bool :=
  let cs := s.data
  if cs.length = 36 then uuidCanonicalOk cs
  else if cs.length = 45 then
    asciiLower (String.mk (cs.take 9)) == "urn:uuid:" && uuidCanonicalOk (cs.drop 9)
  else if cs.length = 38 then
    cs.getD 0 ' ' == '{' && cs.getD 37 ' ' == '}' && uuidCanonicalOk (cs.drop 1 |>.take 36)
  else if cs.length = 32 then cs.all isHexChar
  else false

/-- String form of `uuid.Nil`. -/
def uuidNilString : String := "00000000-0000-0000-0000-000000000000"

/-! ## Repositories (`datastore` package, part of src/unnamed) -/

/-- Embeds `ReadingRepository.GetReadingByContentHash`: validates the
hash, then returns the first readings row with that content hash
(`LIMIT 1`), or `none` when no row matches (`sql.ErrNoRows` is not an
error at this call). -/
def GetReadingByContentHash (db : DB) (hash : String) : Except String (Option ReadingRow) :=
  if hash = "" then .error "content hash cannot be empty"
  else if hash.length ≠ 64 then .error "invalid content hash format (expected 64 hex characters)"
  else .ok (db.readings.find? (fun r => r.contentHash == hash))

/-- Embeds `ReadingRepository.CreateReading`: rejects a reading with any
empty required field or a malformed ID before executing the INSERT; on
success the new row is appended to the readings table. -/
def CreateReading (db : DB) (reading : Reading) : Except String DB :=
  if reading.id = "" || reading.sourceID = "" || reading.contentHash = "" ||
      reading.excerpt = "" || reading.storagePath = "" || reading.title = "" then
    .error "missing required fields for creating reading"
  else if ¬ uuidParseOk reading.id then .error "invalid reading ID format"
  else if ¬ uuidParseOk reading.sourceID then .error "invalid reading source ID format"
  else .ok { db with readings := db.readings ++ [reading.toRow] }

/-- Embeds `ReadingRepository.AddUserReading`: validates both IDs, then
inserts the link with ON CONFLICT (user_id, reading_id) DO NOTHING. -/
def AddUserReading (db : DB) (userID readingID : String) (now receivedAt : Nat) :
    Except String DB :=
  if ¬ uuidParseOk userID then .error "invalid user ID format"
  else if ¬ uuidParseOk readingID then .error "invalid reading ID format"
  else if db.userReadings.any (fun l => l.userId == userID && l.readingId == readingID) then
    .ok db
  else .ok { db with userReadings := db.userReadings ++ [⟨userID, readingID, now, receivedAt⟩] }

/-- Embeds `SourceRepository.GetSourceByIdentifierAndType`: validates the
arguments and returns the source matching the identifier and type; the
no-rows case surfaces as an error whose message contains the words
not found, which the caller inspects. -/
def GetSourceByIdentifierAndType (db : DB) (identifier sourceType : String) :
    Except String ReadingSource :=
  if identifier = "" then .error "identifier cannot be empty"
  else if sourceType = "" then .error "source type cannot be empty"
  else
    match db.sources.find? (fun s => s.identifier == identifier && s.type == sourceType) with
    | some source => .ok source
    | none =>
        .error ("reading source not found for identifier " ++ identifier ++
          " and type " ++ sourceType)

/-- Embeds `SourceRepository.CreateReadingSource`: validates the ID, name
and identifier, then appends the new source row. -/
def CreateReadingSource (db : DB) (source : ReadingSource) : Except String DB :=
  if ¬ uuidParseOk source.id then .error "invalid reading source ID format"
  else if source.name = "" then .error "reading source name cannot be empty"
  else if source.identifier = "" then .error "reading source identifier cannot be empty"
  else .ok { db with sources := db.sources ++ [source] }

/-! ## Attachment selection (`ingestion/orchestrator.go`) -/

/-- Embeds `enmime.Part` as the pipeline consumes it: file name,
declared content type, and decoded content bytes. -/
structure Attachment where
  fileName : String
  contentType : String
  content : List Nat
deriving Repr, DecidableEq

/-- Embeds the fields of `enmime.Envelope` that the pipeline reads:
rendered HTML body, plain-text body, attachment list, and headers. -/
structure Envelope where
  html : String
  text : String
  attachments : List Attachment
  headers : List (String × String)
deriving Repr, DecidableEq

/-- Header lookup (`Envelope.GetHeader`); absent headers read as empty. -/
def Envelope.getHeader (env : Envelope) (key : String) : String :=
  (env.headers.lookup key).getD ""

/-- Embeds `PrioritizedFormat`. -/
structure PrioritizedFormat where
  extension : String
  format : ReadingFormat
deriving Repr, DecidableEq

/-- The fixed priority list of `findPriorityAttachment`. -/
def priorityOrder : List PrioritizedFormat :=
  [⟨".pdf", .pdf⟩, ⟨".epub", .epub⟩, ⟨".mobi", .mobi⟩, ⟨".docx", .docx⟩,
   ⟨".rtf", .rtf⟩, ⟨".md", .md⟩, ⟨".txt", .txt⟩, ⟨".text", .txt⟩]

/-- The minimum attachment size constant of `findPriorityAttachment`. -/
def minAttachmentSizeBytes : Nat := 100

/-- Worker for `filepathExt`: scan the reversed character list for the
last dot before a path separator, accumulating the extension. -/
def extRevAcc : List Char → List Char → List Char
  | [], _ => []
  | c :: rest, acc =>
      if c = '/' then []
      else if c = '.' then c :: acc
      else extRevAcc rest (c :: acc)

/-- Embeds `filepath.Ext`: the suffix of the final path element starting
at its last dot, or empty. -/
def filepathExt (name : String) : String :=
  String.mk (extRevAcc name.data.reverse [])

/-- Embeds `AttachmentExtensionMatches`: case-insensitive comparison of
the file extension with the expected one (`strings.EqualFold`, modelled
for ASCII). -/
def AttachmentExtensionMatches (fileName expectedExtension : String) : Bool :=
  asciiLower (filepathExt fileName) == asciiLower expectedExtension

/-- Media type component of `mime.ParseMediaType`: the part before any
parameters, trimmed and lower-cased. -/
def parseMediaTypeBase (contentType : String) : String :=
  asciiLower (String.mk
    (((((contentType.data.takeWhile (fun c => c ≠ ';')).dropWhile (fun c =>
      c = ' ' || c = '\t')).reverse.dropWhile (fun c => c = ' ' || c = '\t')).reverse)))

/-- Embeds `MatchAttachmentByContentType`: the content-type fallback
table.  Only the pdf, docx, rtf, md and txt tiers have entries; txt
additionally requires a matching extension. -/
def MatchAttachmentByContentType (attachment : Attachment) (pFormat : PrioritizedFormat)
    (contentTypeBase : String) : Option (List Nat × ReadingFormat × String) :=
  match pFormat.format with
  | .pdf =>
      if contentTypeBase == "application/pdf" then
        some (attachment.content, .pdf, attachment.fileName)
      else none
  | .docx =>
      if contentTypeBase == "application/vnd.openxmlformats-officedocument.wordprocessingml.document" then
        some (attachment.content, .docx, attachment.fileName)
      else none
  | .rtf =>
      if contentTypeBase == "application/rtf" || contentTypeBase == "text/rtf" then
        some (attachment.content, .rtf, attachment.fileName)
      else none
  | .md =>
      if contentTypeBase == "text/markdown" then
        some (attachment.content, .md, attachment.fileName)
      else none
  | .txt =>
      if contentTypeBase == "text/plain" &&
          (AttachmentExtensionMatches attachment.fileName ".txt" ||
            AttachmentExtensionMatches attachment.fileName ".text") then
        some (attachment.content, .txt, attachment.fileName)
      else none
  | _ => none

/-- Embeds `checkAttachmentAgainstPriority`: size gate, extension match,
then content-type fallback. -/
def checkAttachmentAgainstPriority (attachment : Attachment) (pFormat : PrioritizedFormat)
    (minSize : Nat) : Option (List Nat × ReadingFormat × String) :=
  let isTooSmall := attachment.content.length < minSize
  let extensionDoesNotMatchPriority :=
    ¬ AttachmentExtensionMatches attachment.fileName pFormat.extension
  if isTooSmall && extensionDoesNotMatchPriority then none
  else if AttachmentExtensionMatches attachment.fileName pFormat.extension then
    some (attachment.content, pFormat.format, attachment.fileName)
  else
    MatchAttachmentByContentType attachment pFormat (parseMediaTypeBase attachment.contentType)

/-- Inner loop of `findPriorityAttachment`: first attachment in envelope
order qualifying for the given tier. -/
def findInAttachments (pFormat : PrioritizedFormat) (attachments : List Attachment) :
    Option (List Nat × ReadingFormat × String) :=
  attachments.findSome? (fun a => checkAttachmentAgainstPriority a pFormat minAttachmentSizeBytes)

/-- Embeds `findPriorityAttachment`: scan the priority tiers in order
and return the first qualifying attachment. -/
def findPriorityAttachment (env : Envelope) : Option (List Nat × ReadingFormat × String) :=
  priorityOrder.findSome? (fun p => findInAttachments p env.attachments)

/-- Embeds `IsDirectReadingFormat`. -/
def IsDirectReadingFormat (format : ReadingFormat) : Bool :=
  match format with
  | .pdf | .epub | .mobi => true
  | _ => false

/-! ## UTF-8 decoding (the Go `string(bytes)` / `[]rune` view) -/

/-- The unicode replacement character Go substitutes for invalid bytes. -/
def replacementChar : Char := Char.ofNat 0xFFFD

/-- Continuation byte test. -/
def isCont (b : Nat) : Bool := 128 ≤ b && b ≤ 191

/-- Strict UTF-8 decoder with Go rune-decoding semantics: each invalid
byte decodes to the replacement character and consumes one byte.  The
fuel argument bounds the byte count so the kernel can evaluate it. -/
def utf8DecodeAux : Nat → List Nat → List Char
  | 0, _ => []
  | _, [] => []
  | fuel + 1, b1 :: rest =>
    if b1 < 128 then Char.ofNat b1 :: utf8DecodeAux fuel rest
    else if 194 ≤ b1 && b1 ≤ 223 then
      match rest with
      | b2 :: rest2 =>
          if isCont b2 then
            Char.ofNat ((b1 - 192) * 64 + (b2 - 128)) :: utf8DecodeAux fuel rest2
          else replacementChar :: utf8DecodeAux fuel rest
      | [] => [replacementChar]
    else if 224 ≤ b1 && b1 ≤ 239 then
      match rest with
      | b2 :: b3 :: rest3 =>
          if (if b1 = 224 then 160 ≤ b2 && b2 ≤ 191
              else if b1 = 237 then 128 ≤ b2 && b2 ≤ 159
              else isCont b2) && isCont b3 then
            Char.ofNat ((b1 - 224) * 4096 + (b2 - 128) * 64 + (b3 - 128)) ::
              utf8DecodeAux fuel rest3
          else replacementChar :: utf8DecodeAux fuel rest
      | _ => replacementChar :: utf8DecodeAux fuel rest
    else if 240 ≤ b1 && b1 ≤ 244 then
      match rest with
      | b2 :: b3 :: b4 :: rest4 =>
          if (if b1 = 240 then 144 ≤ b2 && b2 ≤ 191
              else if b1 = 244 then 128 ≤ b2 && b2 ≤ 143
              else isCont b2) && isCont b3 && isCont b4 then
            Char.ofNat ((b1 - 240) * 262144 + (b2 - 128) * 4096 + (b3 - 128) * 64 + (b4 - 128)) ::
              utf8DecodeAux fuel rest4
          else replacementChar :: utf8DecodeAux fuel rest
      | _ => replacementChar :: utf8DecodeAux fuel rest
    else replacementChar :: utf8DecodeAux fuel rest

/-- Character view of a Go byte string. -/
def utf8Decode (l : List Nat) : List Char :=
  utf8DecodeAux l.length l

/-- Go string conversion `string(bytes)` as seen through rune iteration. -/
def bytesToStr (l : List Nat) : String :=
  String.mk (utf8Decode l)

/-! ## Excerpt generation (`reading_builder.go`) -/

/-- White-space test of `unicode.IsSpace` restricted to the Latin-1 range
the pipeline encounters. -/
def isGoSpace (c : Char) : Bool :=
  c.toNat = 9 || c.toNat = 10 || c.toNat = 11 || c.toNat = 12 || c.toNat = 13 ||
    c.toNat = 32 || c.toNat = 133 || c.toNat = 160

/-- Embeds `strings.TrimSpace` (rune-wise trimming on both ends). -/
def trimSpace (s : String) : String :=
  String.mk (((s.data.dropWhile isGoSpace).reverse.dropWhile isGoSpace).reverse)

/-- Largest start index at which the pattern occurs in the list. -/
def lastIndexNat (hay pat : List Nat) : Option Nat :=
  ((List.range (hay.length + 1)).filter (fun i => pat.isPrefixOf (hay.drop i))).max?

/-- Embeds `strings.LastIndex` on the byte views: the byte index of the
last occurrence, or -1. -/
def goLastIndex (hay pat : List Nat) : Int :=
  match lastIndexNat hay pat with
  | some i => (i : Int)
  | none => -1

/-- Embeds `strings.TrimSuffix`. -/
def goTrimSuffix (s suffix : String) : String :=
  if suffix.data.isSuffixOf s.data then
    String.mk (s.data.take (s.data.length - suffix.data.length))
  else s

/-- Embeds `generateExcerptFromText`.  Byte-indexed operations (`len`,
`strings.LastIndex`) act on the UTF-8 byte view while slicing acts on
the rune view, exactly as in the Go source, which mixes the two. -/
def generateExcerptFromText (plainTextContent : String) : String :=
  let maxLength : Nat := 250
  let trimmedContent := trimSpace plainTextContent
  if goLen trimmedContent = 0 then ""
  else if goLen trimmedContent ≤ maxLength then trimmedContent
  else
    let runes := trimmedContent.data
    if runes.length ≤ maxLength then trimmedContent
    else
      let excerptRunes := runes.take maxLength
      let tempExcerpt := String.mk excerptRunes
      let lastPeriod := goLastIndex (strBytes tempExcerpt) (strBytes ". ")
      if lastPeriod > 0 ∧ lastPeriod > (maxLength : Int) - 75 then
        String.mk (runes.take (lastPeriod.toNat + 1)) ++ "..."
      else
        let lastSpace := goLastIndex (strBytes tempExcerpt) (strBytes " ")
        if lastSpace > 0 ∧ lastSpace > (maxLength : Int) - 100 then
          String.mk (runes.take lastSpace.toNat) ++ "..."
        else
          String.mk excerptRunes ++ "..."

/-! ## Converter (`conversion` package, src/unnamed/part_001) -/

/-- Embeds `conversion.Converter`.  `pandocPath` is empty when the
executable was not found at construction; `pandocRun` is the injected
behaviour of the external pandoc process, consulted only when a path
was found. -/
structure Converter where
  pandocPath : String
  timeoutSecs : Nat
  pandocRun : String → List Nat → Except String (List Nat)

/-- Embeds `Converter.runPandoc`: fails fast when no executable was
found, otherwise defers to the external process. -/
def runPandoc (c : Converter) (fromFormat : String) (inputBytes : List Nat) :
    Except String (List Nat) :=
  if c.pandocPath = "" then
    .error ("pandoc executable not found, cannot perform conversion from " ++ fromFormat)
  else c.pandocRun fromFormat inputBytes

/-- Embeds `Converter.ToHTML`: markdown, docx and rtf go through pandoc
(failing fast with the original bytes and format when pandoc is absent or
fails), html passes through, txt is wrapped in a pre shell, and the
direct formats are returned unchanged.  The Go default case for unknown
format strings is unreachable over the closed format enumeration. -/
def Converter.ToHTML (c : Converter) (contentBytes : List Nat) (originalFormat : ReadingFormat) :
    List Nat × ReadingFormat × Option String :=
  match originalFormat with
  | .md | .docx | .rtf =>
      let pandocInputFormat :=
        match originalFormat with
        | .md => "markdown"
        | .docx => "docx"
        | .rtf => "rtf"
        | _ => ""
      if c.pandocPath = "" then
        (contentBytes, originalFormat,
          some ("pandoc conversion required for " ++ originalFormat.str ++
            ", but pandoc executable was not found"))
      else
        match runPandoc c pandocInputFormat contentBytes with
        | .ok htmlBytes => (htmlBytes, .html, none)
        | .error e =>
            (contentBytes, originalFormat,
              some ("pandoc conversion from " ++ originalFormat.str ++ " failed: " ++ e))
  | .html => (contentBytes, .html, none)
  | .txt => (strBytes "<pre>" ++ contentBytes ++ strBytes "</pre>", .html, none)
  | .pdf | .epub | .mobi => (contentBytes, originalFormat, none)

/-! ## Content pipeline (`reading_builder.go` pipeline section) -/

/-- Pipeline stages, used as a ghost trace to state ordering claims.
Each embedded function also returns the list of stage events its Go
counterpart performs, in execution order. -/
inductive Ev where
  | classify
  | normalize
  | extract
  | fingerprint
  | assemble
  | dedupe
  | persist
  | link
deriving Repr, DecidableEq

/-- Embeds `ProcessedContent`. -/
structure ProcessedContent where
  mainHTML : String
  mainText : String
  extractedTitle : String
deriving Repr, DecidableEq

/-- Embeds `ContentInput`. -/
structure ContentInput where
  bytes : List Nat
  originalFormat : ReadingFormat
  originalFileName : String
deriving Repr, DecidableEq

/-- Embeds `PipelineOutput`. -/
structure PipelineOutput where
  finalContentBytes : List Nat
  finalFormat : ReadingFormat
  processedData : Option ProcessedContent
deriving Repr, DecidableEq

/-- Embeds `ContentPipelineService`.  `contentProcessorProcess` is the
injected behaviour of `ContentProcessor.Process` (bluemonday sanitizing
plus readability extraction, both external libraries): it receives the
raw HTML and the placeholder base URL and returns the optional processed
content and optional error of the Go signature. -/
structure ContentPipelineService where
  converter : Converter
  contentProcessorProcess : String → String → Option ProcessedContent × Option String

/-- Embeds `processHTMLWithContentProcessor`: empty input short-circuits;
a processor error, a nil result or an empty main content fall back to the
pre-processor HTML; the error component of the Go return is nil on every
path. -/
def processHTMLWithContentProcessor (ps : ContentPipelineService) (htmlBytes : List Nat)
    (originalFileNameForBaseURL : String) :
    (List Nat × Option ProcessedContent × Option String) × List Ev :=
  if htmlBytes = [] then ((htmlBytes, some ⟨"", "", ""⟩, none), [])
  else
    let placeholderBaseURL :=
      if originalFileNameForBaseURL ≠ "" then "file://" ++ originalFileNameForBaseURL else ""
    match ps.contentProcessorProcess (bytesToStr htmlBytes) placeholderBaseURL with
    | (extractedData, procErr) =>
      if procErr.isSome then
        ((htmlBytes, some ⟨bytesToStr htmlBytes, bytesToStr htmlBytes, ""⟩, none), [.extract])
      else
        match extractedData with
        | none =>
            ((htmlBytes, some ⟨bytesToStr htmlBytes, bytesToStr htmlBytes, ""⟩, none), [.extract])
        | some extracted =>
            if extracted.mainHTML = "" then ((htmlBytes, some extracted, none), [.extract])
            else ((strBytes extracted.mainHTML, some extracted, none), [.extract])

/-- Embeds `ContentPipelineService.ProcessContent`: attempt conversion
for docx, rtf, md and txt, keeping the original content and format when
conversion fails; run the content processor when the current format is
html; otherwise return the content as is. -/
def ProcessContent (ps : ContentPipelineService) (input : ContentInput) :
    (PipelineOutput × Option String) × List Ev :=
  let attemptConverter :=
    match input.originalFormat with
    | .docx | .rtf | .md | .txt => true
    | _ => false
  let afterConv :
      (List Nat × ReadingFormat) × List Ev :=
    if attemptConverter then
      match Converter.ToHTML ps.converter input.bytes input.originalFormat with
      | (convertedBytes, newFmt, convErr) =>
        if convErr.isSome then ((input.bytes, input.originalFormat), [.normalize])
        else ((convertedBytes, newFmt), [.normalize])
    else ((input.bytes, input.originalFormat), [])
  let htmlBytesToProcess := afterConv.1.1
  let currentFormat := afterConv.1.2
  if currentFormat = .html then
    match processHTMLWithContentProcessor ps htmlBytesToProcess input.originalFileName with
    | ((processedHTMLBytes, procData, procErr), evs) =>
      if procErr.isSome then
        ((⟨htmlBytesToProcess, .html, procData⟩, procErr), afterConv.2 ++ evs)
      else
        ((⟨processedHTMLBytes, .html, procData⟩, none), afterConv.2 ++ evs)
  else
    ((⟨htmlBytesToProcess, currentFormat, none⟩, none), afterConv.2)

/-! ## Orchestrator content identification (`orchestrator.go`) -/

/-- Embeds `identifyPrimaryContent`: best attachment first, then the
HTML body, then the plain-text body, else the no-processable-content
error. -/
def identifyPrimaryContent (env : Envelope) :
    Except String (List Nat × ReadingFormat × String × Bool) × List Ev :=
  match findPriorityAttachment env with
  | some (attachmentBytes, attachmentFormat, attachmentFileName) =>
      (.ok (attachmentBytes, attachmentFormat, attachmentFileName, true), [.classify])
  | none =>
      if env.html ≠ "" then
        (.ok (strBytes env.html, .html, "email_body.html", false), [.classify])
      else if env.text ≠ "" then
        (.ok (strBytes env.text, .txt, "email_body.txt", false), [.classify])
      else
        (.error "no processable content (attachments, HTML body, or Text body) found in the email",
          [.classify])

/-- Embeds `handleDirectFormatAttachment`: direct formats are used as is. -/
def handleDirectFormatAttachment (attachmentBytes : List Nat) (originalFormat : ReadingFormat) :
    List Nat × ReadingFormat × Option ProcessedContent × Option String :=
  (attachmentBytes, originalFormat, none, none)

/-- Embeds `processAttachedFile`: direct formats bypass the pipeline;
everything else goes through `ProcessContent`, falling back to the
original attachment on a pipeline error. -/
def processAttachedFile (ps : ContentPipelineService) (attachmentBytes : List Nat)
    (originalFormat : ReadingFormat) (originalFileName : String) :
    (List Nat × ReadingFormat × Option ProcessedContent × Option String) × List Ev :=
  if IsDirectReadingFormat originalFormat then
    (handleDirectFormatAttachment attachmentBytes originalFormat, [])
  else
    match ProcessContent ps ⟨attachmentBytes, originalFormat, originalFileName⟩ with
    | ((pipelineOutput, err), evs) =>
      if err.isSome then ((attachmentBytes, originalFormat, none, err), evs)
      else
        ((pipelineOutput.finalContentBytes, pipelineOutput.finalFormat,
          pipelineOutput.processedData, none), evs)

/-- Embeds `processEmailBody`: the body always goes through
`ProcessContent`, falling back to the original body on a pipeline
error. -/
def processEmailBody (ps : ContentPipelineService) (bodyBytes : List Nat)
    (originalFormat : ReadingFormat) :
    (List Nat × ReadingFormat × Option ProcessedContent × Option String) × List Ev :=
  match ProcessContent ps
      ⟨bodyBytes, originalFormat, "email_body." ++ asciiLower originalFormat.str⟩ with
  | ((pipelineOutput, err), evs) =>
    if err.isSome then ((bodyBytes, originalFormat, none, err), evs)
    else
      ((pipelineOutput.finalContentBytes, pipelineOutput.finalFormat,
        pipelineOutput.processedData, none), evs)

/-! ## Reading builder (`reading_builder.go`) -/

/-- Substring containment used by the source resolver to recognise a
not-found error (`strings.Contains`). -/
def strContains (s pat : String) : Bool :=
  (List.range (s.data.length + 1)).any (fun i => pat.data.isPrefixOf (s.data.drop i))

/-- Embeds `ReadingBuilder`.  `sourceRepoNil` mirrors the nil check on
the repository pointer; `parseAddressList` is the injected behaviour of
`enmime.ParseAddressList` restricted to the first address (display name
and address, or `none` on a parse failure or empty list);
`parseDate` is the injected behaviour of the `time.Parse` fallback chain
of `extractPublishedDateFromEnv`. -/
structure ReadingBuilder where
  sourceRepoNil : Bool
  parseAddressList : String → Option (String × String)
  parseDate : String → Option Nat

/-- Embeds `determineSourceIDFromSenderEmail`: nil repository and empty
sender short-circuit to the nil UUID; a found source is returned; a
not-found error triggers auto-creation of an email-typed source named
and identified by the sender.  The fresh UUID and the clock are passed
in explicitly. -/
def determineSourceIDFromSenderEmail (rb : ReadingBuilder) (db : DB)
    (senderEmail freshSourceId : String) (now : Nat) : (String × Option String) × DB :=
  if rb.sourceRepoNil then ((uuidNilString, some "sourcerepository not initialized"), db)
  else if senderEmail = "" then ((uuidNilString, none), db)
  else
    match GetSourceByIdentifierAndType db senderEmail "email" with
    | .ok source => ((source.id, none), db)
    | .error e =>
      if strContains e "not found" then
        let newSource : ReadingSource := ⟨freshSourceId, now, senderEmail, "email", senderEmail⟩
        match CreateReadingSource db newSource with
        | .ok db2 => ((newSource.id, none), db2)
        | .error createErr =>
            ((uuidNilString, some ("failed to auto-create source: " ++ createErr)), db)
      else ((uuidNilString, some ("failed to query source: " ++ e)), db)

/-- Embeds `extractAuthorFromEnv`: display name, else address, else the
raw From header; empty when the envelope or header is absent. -/
def extractAuthorFromEnv (rb : ReadingBuilder) (env : Option Envelope) : String :=
  match env with
  | none => ""
  | some e =>
    let fromHeader := e.getHeader "From"
    if fromHeader = "" then ""
    else
      match rb.parseAddressList fromHeader with
      | some (name, addr) => if name ≠ "" then name else addr
      | none => fromHeader

/-- Embeds `extractPublishedDateFromEnv`: parse the Date header through
the format chain; absent or unparseable dates yield `none`. -/
def extractPublishedDateFromEnv (rb : ReadingBuilder) (env : Option Envelope) : Option Nat :=
  match env with
  | none => none
  | some e =>
    let dateStr := e.getHeader "Date"
    if dateStr = "" then none else rb.parseDate dateStr

/-- Embeds `ReadingBuilder.BuildFromHTML`: hash the processed main HTML,
resolve the source, apply the title fallback chain (extracted title →
Subject header → webhook subject → Untitled Reading) and assemble the
reading with format html and no storage path yet. -/
def BuildFromHTML (rb : ReadingBuilder) (db : DB) (actualSenderEmail webhookSubject : String)
    (env : Option Envelope) (processedContent : Option ProcessedContent)
    (freshReadingId freshSourceId : String) (now : Nat) :
    (Except String Reading × DB) × List Ev :=
  match processedContent with
  | none => ((.error "processedContent cannot be nil for BuildFromHTML", db), [])
  | some pc =>
    let contentHash := generateHashStr pc.mainHTML
    match determineSourceIDFromSenderEmail rb db actualSenderEmail freshSourceId now with
    | ((readingSourceID, _), db1) =>
      let t0 := pc.extractedTitle
      let t1 := if t0 = "" then (match env with | some e => e.getHeader "Subject" | none => "") else t0
      let t2 := if t1 = "" then webhookSubject else t1
      let readingTitle := if t2 = "" then "Untitled Reading" else t2
      ((.ok ⟨freshReadingId, readingSourceID, extractAuthorFromEnv rb env, now, contentHash,
          [], generateExcerptFromText pc.mainText, extractPublishedDateFromEnv rb env,
          "", readingTitle, .html⟩, db1),
        [.fingerprint, .assemble])

/-- Embeds `ReadingBuilder.BuildFromFile`: reject empty bytes, hash the
raw file bytes, resolve the source, apply the title fallback chain
(filename stem → Subject header → webhook subject → Untitled
Attachment), generate the excerpt (text formats from the content, other
formats from the message body or a generic description) and assemble the
reading under the original format. -/
def BuildFromFile (rb : ReadingBuilder) (db : DB) (actualSenderEmail webhookSubject : String)
    (env : Option Envelope) (fileBytes : List Nat) (originalFormat : ReadingFormat)
    (originalFileName : String) (freshReadingId freshSourceId : String) (now : Nat) :
    (Except String Reading × DB) × List Ev :=
  if fileBytes = [] then ((.error "file bytes are empty", db), [])
  else
    let contentHash := GenerateHash fileBytes
    match determineSourceIDFromSenderEmail rb db actualSenderEmail freshSourceId now with
    | ((readingSourceID, _), db1) =>
      let stem := goTrimSuffix originalFileName (filepathExt originalFileName)
      let t1 := if stem = "" then (match env with | some e => e.getHeader "Subject" | none => "") else stem
      let t2 := if t1 = "" then webhookSubject else t1
      let readingTitle := if t2 = "" then "Untitled Attachment" else t2
      let excerpt :=
        match originalFormat with
        | .txt | .md => generateExcerptFromText (bytesToStr fileBytes)
        | _ =>
          let emailBodyText := match env with | some e => e.text | none => ""
          if emailBodyText ≠ "" then
            let fromBody := generateExcerptFromText emailBodyText
            if goLen fromBody > 150 then
              "Attached " ++ asciiUpper originalFormat.str ++ " document."
            else fromBody
          else "Attached " ++ asciiUpper originalFormat.str ++ " document."
      ((.ok ⟨freshReadingId, readingSourceID, extractAuthorFromEnv rb env, now, contentHash,
          [], excerpt, extractPublishedDateFromEnv rb env, "", readingTitle, originalFormat⟩,
        db1),
        [.fingerprint, .assemble])

/-! ## Persistence and deduplication (`orchestrator.go`) -/

/-- Embeds `persistNewReading`: fill in the content body and the storage
path readings/userID/readingID.format, then insert the row. -/
def persistNewReading (db : DB) (reading : Reading) (contentToStore : List Nat)
    (formatForStorage : ReadingFormat) (userID : String) : Except String (DB × Reading) :=
  let filled :=
    { reading with
      contentBody := contentToStore,
      storagePath := "readings/" ++ userID ++ "/" ++ reading.id ++ "." ++ formatForStorage.str }
  match CreateReading db filled with
  | .error e => .error ("failed to save reading record to database: " ++ e)
  | .ok db2 => .ok (db2, filled)

/-- Embeds `processReadingPersistenceAndDeduplication`: look up an
existing reading by content hash; when absent persist a new reading,
when present reuse the existing identifier and storage path without any
write. -/
def processReadingPersistenceAndDeduplication (db : DB) (reading : Reading)
    (contentToStore : List Nat) (formatForStorage : ReadingFormat) (userID : String) :
    Except String (DB × Reading) × List Ev :=
  match GetReadingByContentHash db reading.contentHash with
  | .error e => (.error ("failed to check for duplicate content: " ++ e), [.dedupe])
  | .ok none =>
      match persistNewReading db reading contentToStore formatForStorage userID with
      | .error e => (.error e, [.dedupe, .persist])
      | .ok (db2, filled) => (.ok (db2, filled), [.dedupe, .persist])
  | .ok (some existingReading) =>
      (.ok (db, { reading with
          id := existingReading.id,
          storagePath := existingReading.storagePath }),
        [.dedupe])

/-- The persistence and linkage tail of `ProcessInboundEmail` (lines
85-99): persist or deduplicate, then add the user link, whose failure is
not fatal for the ingestion. -/
def persistAndLink (db : DB) (reading : Reading) (contentToStore : List Nat)
    (formatForStorage : ReadingFormat) (userID : String) (now receivedAt : Nat) :
    Except String (DB × Reading) × List Ev :=
  match processReadingPersistenceAndDeduplication db reading contentToStore formatForStorage userID with
  | (.error e, evs) => (.error e, evs)
  | (.ok (db2, reading2), evs) =>
    match AddUserReading db2 userID reading2.id now receivedAt with
    | .error _ => (.ok (db2, reading2), evs ++ [.link])
    | .ok db3 => (.ok (db3, reading2), evs ++ [.link])

/-- Embeds `IngestionOrchestrator` (the repositories are the DB state). -/
structure IngestionOrchestrator where
  pipeline : ContentPipelineService
  readingBuilder : ReadingBuilder

/-- Embeds `IngestionOrchestrator.ProcessInboundEmail` end to end:
identify primary content, process it, build the reading, persist with
deduplication and link the user.  Returns the optional fatal error, the
new persistent state and the stage trace.  Fresh UUIDs and clock values
are passed explicitly. -/
def ProcessInboundEmail (orch : IngestionOrchestrator) (db : DB)
    (userID actualSenderEmail webhookSubject : String) (env : Envelope)
    (freshReadingId freshSourceId : String) (now receivedAt : Nat) :
    (Option String × DB) × List Ev :=
  match identifyPrimaryContent env with
  | (.error e, ev1) => ((some ("no usable primary content found: " ++ e), db), ev1)
  | (.ok (rawContentBytes, originalIdentifiedFormat, originalFileName, isAttachment), ev1) =>
    let processed :=
      if isAttachment then
        processAttachedFile orch.pipeline rawContentBytes originalIdentifiedFormat originalFileName
      else
        processEmailBody orch.pipeline rawContentBytes originalIdentifiedFormat
    match processed with
    | ((finalContentToStore, finalFormatForReading, processedHTMLDataForBuilder, perr), ev2) =>
      match perr with
      | some e => ((some ("failed to process email content: " ++ e), db), ev1 ++ ev2)
      | none =>
        let built :=
          if finalFormatForReading == ReadingFormat.html && processedHTMLDataForBuilder.isSome then
            BuildFromHTML orch.readingBuilder db actualSenderEmail webhookSubject (some env)
              processedHTMLDataForBuilder freshReadingId freshSourceId now
          else
            BuildFromFile orch.readingBuilder db actualSenderEmail webhookSubject (some env)
              finalContentToStore finalFormatForReading originalFileName
              freshReadingId freshSourceId now
        match built with
        | ((.error e, db1), ev3) =>
            ((some ("failed to build reading model: " ++ e), db1), ev1 ++ ev2 ++ ev3)
        | ((.ok reading, db1), ev3) =>
          match persistAndLink db1 reading finalContentToStore finalFormatForReading userID
              now receivedAt with
          | (.error e, ev4) => ((some e, db1), ev1 ++ ev2 ++ ev3 ++ ev4)
          | (.ok (db2, _), ev4) => ((none, db2), ev1 ++ ev2 ++ ev3 ++ ev4)

/-! ## General lemmas about the embedded primitives -/

/-- The hexadecimal digest of a SHA-256 hash always has 64 characters. -/
theorem GenerateHash_length (data : List Nat) : (GenerateHash data).length = 64 := by
  have h32 : (sha256Bytes data).length = 32 := by
    simp [sha256Bytes, sha.digestBytes, be4]
  have hflat : ∀ bs : List Nat,
      ((bs.map (fun b => [hexDigit (b / 16), hexDigit (b % 16)])).flatten).length =
        2 * bs.length := by
    intro bs
    induction bs with
    | nil => simp
    | cons b tl ih => simp [ih]; omega
  show ((sha256Bytes data).map _).flatten.length = 64
  rw [hflat, h32]

/-- Content hashes are never the empty string. -/
theorem GenerateHash_ne_empty (data : List Nat) : GenerateHash data ≠ "" := by
  intro h
  have := GenerateHash_length data
  rw [h] at this
  simp [String.length] at this

/-- Substring containment is preserved by appending on the right. -/
theorem strContains_append_right (s t pat : String) (h : strContains s pat = true) :
    strContains (s ++ t) pat = true := by
  simp only [strContains, List.any_eq_true, List.mem_range] at h ⊢
  obtain ⟨i, hi, hpre⟩ := h
  refine ⟨i, ?_, ?_⟩
  · simp only [String.data_append, List.length_append]
    omega
  · rw [List.isPrefixOf_iff_prefix] at hpre ⊢
    have hle : i ≤ s.data.length := by omega
    simp only [String.data_append]
    rw [List.drop_append_eq_append_drop]
    exact hpre.trans (List.prefix_append _ _)

/-- The error message of a failed source lookup always contains the
words the caller greps for. -/
theorem notFound_message_contains (identifier sourceType : String) :
    strContains ("reading source not found for identifier " ++ identifier ++
      " and type " ++ sourceType) "not found" = true := by
  have hbase : strContains "reading source not found for identifier " "not found" = true := by
    decide
  exact strContains_append_right _ _ _
    (strContains_append_right _ _ _ (strContains_append_right _ _ _ hbase))

/-! ## Claim C9: no content-type fallback for the epub and mobi tiers -/

/-- C9.  `MatchAttachmentByContentType` has no entry for the epub and
mobi tiers, so it returns no match there for every attachment and every
declared content type; consequently an attachment qualifies for the
epub or mobi tier exactly when its filename extension equals .epub or
.mobi case-insensitively. -/
theorem claim_C9 :
    (∀ (a : Attachment) (p : PrioritizedFormat) (ct : String),
        p.format = ReadingFormat.epub ∨ p.format = ReadingFormat.mobi →
        MatchAttachmentByContentType a p ct = none) ∧
    (∀ a : Attachment,
        (checkAttachmentAgainstPriority a ⟨".epub", .epub⟩ minAttachmentSizeBytes).isSome =
          AttachmentExtensionMatches a.fileName ".epub") ∧
    (∀ a : Attachment,
        (checkAttachmentAgainstPriority a ⟨".mobi", .mobi⟩ minAttachmentSizeBytes).isSome =
          AttachmentExtensionMatches a.fileName ".mobi") := by
  refine ⟨?_, ?_, ?_⟩
  · intro a p ct h
    rcases h with h | h <;>
      · simp only [MatchAttachmentByContentType, h]
  · intro a
    by_cases hm : AttachmentExtensionMatches a.fileName ".epub"
    · by_cases hs : a.content.length < minAttachmentSizeBytes <;>
        simp [checkAttachmentAgainstPriority, hm, hs]
    · by_cases hs : a.content.length < minAttachmentSizeBytes <;>
        simp [checkAttachmentAgainstPriority, hm, hs, MatchAttachmentByContentType]
  · intro a
    by_cases hm : AttachmentExtensionMatches a.fileName ".mobi"
    · by_cases hs : a.content.length < minAttachmentSizeBytes <;>
        simp [checkAttachmentAgainstPriority, hm, hs]
    · by_cases hs : a.content.length < minAttachmentSizeBytes <;>
        simp [checkAttachmentAgainstPriority, hm, hs, MatchAttachmentByContentType]

/-- Witness for C9: an epub-typed attachment without the .epub extension
is not selected by content type, and one with the extension (in any
case) is selected. -/
theorem claim_C9_witness :
    MatchAttachmentByContentType ⟨"book.bin", "application/epub+zip", List.replicate 200 1⟩
        ⟨".epub", .epub⟩ "application/epub+zip" = none ∧
    (checkAttachmentAgainstPriority ⟨"book.bin", "application/epub+zip", List.replicate 200 1⟩
        ⟨".epub", .epub⟩ minAttachmentSizeBytes).isSome = false ∧
    (checkAttachmentAgainstPriority ⟨"book.EPUB", "application/octet-stream", []⟩
        ⟨".epub", .epub⟩ minAttachmentSizeBytes).isSome = true := by
  refine ⟨claim_C9.1 _ _ _ (Or.inl rfl), ?_, ?_⟩
  · rw [claim_C9.2.1]
    decide
  · rw [claim_C9.2.1]
    decide

/-! ## Claim C10: CreateReading rejects empty required fields -/

/-- C10.  `CreateReading` fails (and, the state being carried by the
`Except` result, inserts nothing) whenever the ID, source ID, content
hash, excerpt, storage path or title is empty; hence a new reading whose
generated excerpt is empty can never be persisted by
`persistNewReading`, and a whitespace-only plain text generates exactly
such an empty excerpt. -/
theorem claim_C10 :
    (∀ (db : DB) (r : Reading),
        r.id = "" ∨ r.sourceID = "" ∨ r.contentHash = "" ∨ r.excerpt = "" ∨
          r.storagePath = "" ∨ r.title = "" →
        CreateReading db r = .error "missing required fields for creating reading") ∧
    (∀ (db : DB) (r : Reading) (c : List Nat) (fmt : ReadingFormat) (u : String),
        r.excerpt = "" →
        persistNewReading db r c fmt u =
          .error "failed to save reading record to database: missing required fields for creating reading") ∧
    (∀ s : String, trimSpace s = "" → generateExcerptFromText s = "") := by
  refine ⟨?_, ?_, ?_⟩
  · intro db r h
    rcases h with h | h | h | h | h | h <;> simp [CreateReading, h]
  · intro db r c fmt u h
    simp [persistNewReading, CreateReading, h]
  · intro s h
    simp only [generateExcerptFromText, h]
    decide

/-- Witness for C10: a concrete reading with an empty excerpt is
rejected by `CreateReading` and by `persistNewReading`, and a
whitespace-only content string generates an empty excerpt. -/
theorem claim_C10_witness :
    CreateReading ⟨[], [], []⟩
        ⟨"22222222-2222-2222-2222-222222222222", "33333333-3333-3333-3333-333333333333",
          "", 0, "h", [], "", none, "p", "t", .txt⟩ =
      .error "missing required fields for creating reading" ∧
    persistNewReading ⟨[], [], []⟩
        ⟨"22222222-2222-2222-2222-222222222222", "33333333-3333-3333-3333-333333333333",
          "", 0, "h", [], "", none, "", "t", .txt⟩ [104, 105] .txt
        "11111111-1111-1111-1111-111111111111" =
      .error "failed to save reading record to database: missing required fields for creating reading" ∧
    generateExcerptFromText "   " = "" := by
  refine ⟨?_, ?_, ?_⟩
  · exact claim_C10.1 _ _ (Or.inr (Or.inr (Or.inr (Or.inl rfl))))
  · exact claim_C10.2.1 _ _ _ _ _ rfl
  · exact claim_C10.2.2 "   " (by decide)

/-! ## Claim C6: source resolution -/

/-- Finding nothing in a first list defers to the second. -/
theorem find?_append_of_none {α} (p : α → Bool) (l1 l2 : List α) (h : l1.find? p = none) :
    (l1 ++ l2).find? p = l2.find? p := by
  induction l1 with
  | nil => simp
  | cons a tl ih =>
      cases hp : p a with
      | false =>
          simp only [List.find?_cons, hp, List.cons_append] at h ⊢
          exact ih h
      | true =>
          simp only [List.find?_cons, hp] at h
          exact absurd h (by simp)

/-- C6.  Source resolution: an empty sender yields the nil-UUID sentinel
with no error and no state change; an existing (email, sender) source is
returned unchanged; a previously unseen sender creates exactly one new
email-typed source named and identified by the sender, which a
subsequent resolution for the same sender then reuses without creating
anything further. -/
theorem claim_C6 (rb : ReadingBuilder) (db : DB) (sender freshId : String) (now : Nat)
    (hrb : rb.sourceRepoNil = false) :
    (sender = "" →
      determineSourceIDFromSenderEmail rb db sender freshId now = ((uuidNilString, none), db)) ∧
    (∀ src, sender ≠ "" →
      db.sources.find? (fun s => s.identifier == sender && s.type == "email") = some src →
      determineSourceIDFromSenderEmail rb db sender freshId now = ((src.id, none), db)) ∧
    (sender ≠ "" →
      db.sources.find? (fun s => s.identifier == sender && s.type == "email") = none →
      uuidParseOk freshId = true →
      determineSourceIDFromSenderEmail rb db sender freshId now =
        ((freshId, none),
          { db with sources := db.sources ++ [⟨freshId, now, sender, "email", sender⟩] }) ∧
      (∀ freshId2 now2,
        determineSourceIDFromSenderEmail rb
            { db with sources := db.sources ++ [⟨freshId, now, sender, "email", sender⟩] }
            sender freshId2 now2 =
          ((freshId, none),
            { db with sources := db.sources ++ [⟨freshId, now, sender, "email", sender⟩] }))) := by
  refine ⟨?_, ?_, ?_⟩
  · intro hs
    simp [determineSourceIDFromSenderEmail, hrb, hs]
  · intro src hs hfind
    simp [determineSourceIDFromSenderEmail, GetSourceByIdentifierAndType, hrb, hs, hfind]
  · intro hs hfind hfresh
    constructor
    · simp [determineSourceIDFromSenderEmail, GetSourceByIdentifierAndType, hrb, hs, hfind,
        notFound_message_contains, CreateReadingSource, hfresh]
    · intro freshId2 now2
      have hfind2 :
          (db.sources ++ [(⟨freshId, now, sender, "email", sender⟩ : ReadingSource)]).find?
              (fun s => s.identifier == sender && s.type == "email") =
            some ⟨freshId, now, sender, "email", sender⟩ := by
        rw [find?_append_of_none _ _ _ hfind]
        simp [List.find?]
      simp [determineSourceIDFromSenderEmail, GetSourceByIdentifierAndType, hrb, hs, hfind2]

/-- Witness for C6 at concrete inputs: the empty sender, a second
resolution after auto-creation, and the auto-creation itself. -/
theorem claim_C6_witness :
    determineSourceIDFromSenderEmail ⟨false, fun _ => none, fun _ => none⟩ ⟨[], [], []⟩
        "" "44444444-4444-4444-4444-444444444444" 7 = ((uuidNilString, none), ⟨[], [], []⟩) ∧
    determineSourceIDFromSenderEmail ⟨false, fun _ => none, fun _ => none⟩ ⟨[], [], []⟩
        "alice@example.com" "44444444-4444-4444-4444-444444444444" 7 =
      (("44444444-4444-4444-4444-444444444444", none),
        ⟨[], [],
          [⟨"44444444-4444-4444-4444-444444444444", 7, "alice@example.com", "email",
            "alice@example.com"⟩]⟩) := by
  constructor
  · exact (claim_C6 _ _ _ _ _ rfl).1 rfl
  · exact ((claim_C6 _ ⟨[], [], []⟩ "alice@example.com" _ 7 rfl).2.2 (by decide) rfl
      (by decide)).1

/-! ## Claim C7: empty content rejection -/

/-- C7.  An envelope with no qualifying attachment, empty HTML body and
empty text body fails ingestion with the no-processable-content error
before touching any persistent state: the database is returned
unchanged and the trace shows that only classification ran. -/
theorem claim_C7 (orch : IngestionOrchestrator) (db : DB)
    (userID actualSenderEmail webhookSubject : String) (env : Envelope)
    (freshReadingId freshSourceId : String) (now receivedAt : Nat)
    (hhtml : env.html = "") (htext : env.text = "")
    (hatt : findPriorityAttachment env = none) :
    ProcessInboundEmail orch db userID actualSenderEmail webhookSubject env
        freshReadingId freshSourceId now receivedAt =
      ((some ("no usable primary content found: " ++
          "no processable content (attachments, HTML body, or Text body) found in the email"),
        db), [Ev.classify]) := by
  simp [ProcessInboundEmail, identifyPrimaryContent, hatt, hhtml, htext]

/-- Witness for C7: a concrete empty envelope is rejected and the empty
database is unchanged. -/
theorem claim_C7_witness :
    ProcessInboundEmail
        ⟨⟨⟨"", 30, fun _ _ => .error "unused"⟩, fun _ _ => (none, none)⟩,
          ⟨false, fun _ => none, fun _ => none⟩⟩
        ⟨[], [], []⟩ "11111111-1111-1111-1111-111111111111" "a@b.com" "Subj"
        ⟨"", "", [], []⟩ "22222222-2222-2222-2222-222222222222"
        "33333333-3333-3333-3333-333333333333" 5 6 =
      ((some ("no usable primary content found: " ++
          "no processable content (attachments, HTML body, or Text body) found in the email"),
        ⟨[], [], []⟩), [Ev.classify]) :=
  claim_C7 _ _ _ _ _ _ _ _ _ _ rfl rfl rfl

/-! ## Helper lemmas for the persistence claims -/

/-- A string with a nonempty left component of an append is nonempty. -/
theorem append_ne_empty_left (s t : String) (h : s.data ≠ []) : s ++ t ≠ "" := by
  intro he
  apply h
  have : (s ++ t).data = [] := by rw [he]
  rw [String.data_append] at this
  exact (List.append_eq_nil.mp this).1

/-- A string accepted by the UUID parser is nonempty. -/
theorem uuidParseOk_ne_empty (s : String) (h : uuidParseOk s = true) : s ≠ "" := by
  intro he
  subst he
  exact absurd h (by decide)

/-- Looking up a generated hash never fails validation. -/
theorem getReadingByGeneratedHash (db : DB) (c : List Nat) :
    GetReadingByContentHash db (GenerateHash c) =
      .ok (db.readings.find? (fun r => r.contentHash == GenerateHash c)) := by
  simp [GetReadingByContentHash, GenerateHash_ne_empty c, GenerateHash_length c]

/-- Behaviour of a successful user link: only the link table can change,
the link is present afterwards, and it is appended exactly when it was
absent. -/
theorem AddUserReading_ok (db : DB) (u rid : String) (n ra : Nat)
    (hu : uuidParseOk u = true) (hr : uuidParseOk rid = true) :
    ∃ db', AddUserReading db u rid n ra = .ok db' ∧
      db'.readings = db.readings ∧ db'.sources = db.sources ∧
      (db.userReadings.any (fun l => l.userId == u && l.readingId == rid) = true → db' = db) ∧
      (db.userReadings.any (fun l => l.userId == u && l.readingId == rid) = false →
        db'.userReadings = db.userReadings ++ [⟨u, rid, n, ra⟩]) ∧
      db'.userReadings.any (fun l => l.userId == u && l.readingId == rid) = true := by
  cases hany : db.userReadings.any (fun l => l.userId == u && l.readingId == rid) with
  | true =>
      refine ⟨db, ?_, rfl, rfl, fun _ => rfl, ?_, hany⟩
      · simp [AddUserReading, hu, hr, hany]
      · intro hc
        exact absurd hc (by decide)
  | false =>
      refine ⟨{ db with userReadings := db.userReadings ++ [⟨u, rid, n, ra⟩] }, ?_, rfl, rfl,
        ?_, fun _ => rfl, ?_⟩
      · simp [AddUserReading, hu, hr, hany]
      · intro hc
        exact absurd hc (by decide)
      · simp

/-- A successful source insertion only appends to the sources table. -/
theorem CreateReadingSource_state (db : DB) (s : ReadingSource) (db' : DB)
    (h : CreateReadingSource db s = .ok db') :
    db' = { db with sources := db.sources ++ [s] } := by
  unfold CreateReadingSource at h
  split at h
  · cases h
  · split at h
    · cases h
    · split at h
      · cases h
      · cases h
        rfl

/-- Appending cannot erase a nonempty character list. -/
theorem append_data_ne_nil (s t : String) (h : s.data ≠ []) : (s ++ t).data ≠ [] := by
  rw [String.data_append]
  intro hc
  exact h (List.append_eq_nil.mp hc).1

/-- A string with characters is not the empty string. -/
theorem strNeEmpty_of_data (s : String) (h : s.data ≠ []) : s ≠ "" := by
  intro he
  subst he
  exact h rfl

/-- The title fallback chain never produces an empty title. -/
theorem fallbackTitle_ne_empty (deflt s : String) (hd : deflt ≠ "") :
    (if s = "" then deflt else s) ≠ "" := by
  split
  · exact hd
  · assumption

/-- A successful user link insertion leaves readings and sources
untouched. -/
theorem AddUserReading_state (db : DB) (u rid : String) (n ra : Nat) (db' : DB)
    (h : AddUserReading db u rid n ra = .ok db') :
    db'.readings = db.readings ∧ db'.sources = db.sources := by
  unfold AddUserReading at h
  split at h
  · cases h
  · split at h
    · cases h
    · split at h
      · cases h
        exact ⟨rfl, rfl⟩
      · cases h
        exact ⟨rfl, rfl⟩

/-- Source resolution only ever touches the sources table. -/
theorem determineSourceID_preserves (rb : ReadingBuilder) (db : DB)
    (sender freshId : String) (now : Nat) :
    ((determineSourceIDFromSenderEmail rb db sender freshId now).2).readings = db.readings ∧
    ((determineSourceIDFromSenderEmail rb db sender freshId now).2).userReadings =
      db.userReadings := by
  unfold determineSourceIDFromSenderEmail
  split
  · exact ⟨rfl, rfl⟩
  · split
    · exact ⟨rfl, rfl⟩
    · split
      · exact ⟨rfl, rfl⟩
      · split
        · dsimp only
          cases hcreate : CreateReadingSource db ⟨freshId, now, sender, "email", sender⟩ with
          | ok db2 =>
              rw [CreateReadingSource_state _ _ _ hcreate]
              exact ⟨rfl, rfl⟩
          | error e => exact ⟨rfl, rfl⟩
        · exact ⟨rfl, rfl⟩

/-- The reading value persisted on the new branch: content body and
storage path filled in exactly as `persistNewReading` does. -/
def filledReading (r : Reading) (c : List Nat) (fmt : ReadingFormat) (u : String) : Reading :=
  { r with contentBody := c, storagePath := "readings/" ++ u ++ "/" ++ r.id ++ "." ++ fmt.str }

/-- The new-content branch of persistence plus linkage: when no stored
reading carries the content hash and the assembled reading is valid, the
content body and storage path are filled in, exactly one row is
appended, and the user link is ensured. -/
theorem persistAndLink_new (db : DB) (r : Reading) (c : List Nat) (fmt : ReadingFormat)
    (u : String) (n ra : Nat)
    (hdup : db.readings.find? (fun row => row.contentHash == r.contentHash) = none)
    (hhne : r.contentHash ≠ "") (hhlen : r.contentHash.length = 64)
    (hid : uuidParseOk r.id = true) (hsrc : uuidParseOk r.sourceID = true)
    (hex : r.excerpt ≠ "") (ht : r.title ≠ "") (hu : uuidParseOk u = true) :
    ∃ db',
      persistAndLink db r c fmt u n ra =
        (.ok (db', filledReading r c fmt u), [Ev.dedupe, Ev.persist, Ev.link]) ∧
      db'.readings = db.readings ++ [(filledReading r c fmt u).toRow] ∧
      db'.sources = db.sources ∧
      db'.userReadings.any (fun l => l.userId == u && l.readingId == r.id) = true ∧
      (db.userReadings.any (fun l => l.userId == u && l.readingId == r.id) = false →
        db'.userReadings = db.userReadings ++ [⟨u, r.id, n, ra⟩]) := by
  have hsp : ("readings/" ++ u ++ "/" ++ r.id ++ "." ++ fmt.str) ≠ "" := by
    apply strNeEmpty_of_data
    apply append_data_ne_nil
    apply append_data_ne_nil
    apply append_data_ne_nil
    apply append_data_ne_nil
    apply append_data_ne_nil
    decide
  have hget : GetReadingByContentHash db r.contentHash = .ok none := by
    simp [GetReadingByContentHash, hhne, hhlen, hdup]
  have hcreate : CreateReading db (filledReading r c fmt u) =
      .ok { db with readings := db.readings ++ [(filledReading r c fmt u).toRow] } := by
    simp [CreateReading, filledReading, uuidParseOk_ne_empty _ hid, uuidParseOk_ne_empty _ hsrc,
      hhne, hex, ht, hsp, hid, hsrc]
  have hpersist : persistNewReading db r c fmt u =
      .ok ({ db with readings := db.readings ++ [(filledReading r c fmt u).toRow] },
        filledReading r c fmt u) := by
    simp only [filledReading] at hcreate ⊢
    simp only [persistNewReading]
    rw [hcreate]
  obtain ⟨db', hadd, hr1, hs1, _, hlinknew, hlinkpresent⟩ :=
    AddUserReading_ok { db with readings := db.readings ++ [(filledReading r c fmt u).toRow] }
      u r.id n ra hu hid
  refine ⟨db', ?_, by rw [hr1], by rw [hs1], hlinkpresent, hlinknew⟩
  simp only [persistAndLink, processReadingPersistenceAndDeduplication, hget, hpersist]
  have : (filledReading r c fmt u).id = r.id := rfl
  rw [this, hadd]
  rfl

/-- The duplicate branch of persistence plus linkage: when a stored
reading already carries the content hash, no reading row is written, the
existing identifier and storage path are reused, and only the user link
table can change. -/
theorem persistAndLink_dup (db : DB) (r : Reading) (c : List Nat) (fmt : ReadingFormat)
    (u : String) (n ra : Nat) (ex : ReadingRow)
    (hhne : r.contentHash ≠ "") (hhlen : r.contentHash.length = 64)
    (hfound : db.readings.find? (fun row => row.contentHash == r.contentHash) = some ex)
    (hu : uuidParseOk u = true) (hexid : uuidParseOk ex.id = true) :
    ∃ db',
      persistAndLink db r c fmt u n ra =
        (.ok (db', { r with id := ex.id, storagePath := ex.storagePath }),
          [Ev.dedupe, Ev.link]) ∧
      db'.readings = db.readings ∧ db'.sources = db.sources ∧
      (db.userReadings.any (fun l => l.userId == u && l.readingId == ex.id) = true →
        db' = db) ∧
      (db.userReadings.any (fun l => l.userId == u && l.readingId == ex.id) = false →
        db'.userReadings = db.userReadings ++ [⟨u, ex.id, n, ra⟩]) := by
  have hget : GetReadingByContentHash db r.contentHash = .ok (some ex) := by
    simp [GetReadingByContentHash, hhne, hhlen, hfound]
  obtain ⟨db', hadd, hr1, hs1, hpres, habs, _⟩ := AddUserReading_ok db u ex.id n ra hu hexid
  refine ⟨db', ?_, hr1, hs1, hpres, habs⟩
  simp only [persistAndLink, processReadingPersistenceAndDeduplication, hget]
  rw [hadd]
  rfl

/-- Conversion attempts for the pandoc-dependent formats fail fast with
the original bytes and format when no pandoc executable was found. -/
theorem toHTML_absent (c : Converter) (bytes : List Nat) (fmt : ReadingFormat)
    (hf : fmt = .md ∨ fmt = .docx ∨ fmt = .rtf) (hpath : c.pandocPath = "") :
    Converter.ToHTML c bytes fmt =
      (bytes, fmt, some ("pandoc conversion required for " ++ fmt.str ++
        ", but pandoc executable was not found")) := by
  rcases hf with rfl | rfl | rfl <;> simp [Converter.ToHTML, hpath]

/-- With pandoc absent the pipeline proceeds with the original content
under the original format and reports no error. -/
theorem processContent_absent (ps : ContentPipelineService) (bytes : List Nat)
    (name : String) (fmt : ReadingFormat)
    (hf : fmt = .md ∨ fmt = .docx ∨ fmt = .rtf) (hpath : ps.converter.pandocPath = "") :
    ProcessContent ps ⟨bytes, fmt, name⟩ = ((⟨bytes, fmt, none⟩, none), [Ev.normalize]) := by
  have hconv := toHTML_absent ps.converter bytes fmt hf hpath
  rcases hf with rfl | rfl | rfl <;> simp [ProcessContent, hconv]

/-- Shape of a successful docx file build: the reading carries the hash
of the raw bytes, the generic attachment excerpt (when the message body
is empty), a nonempty title, and the docx format tag. -/
theorem BuildFromFile_docx (rb : ReadingBuilder) (db : DB) (sender subj : String)
    (envv : Envelope) (fileBytes : List Nat) (name frid fsid : String) (now : Nat)
    (hb : fileBytes ≠ []) (htext : envv.text = "") :
    ∃ r : Reading,
      BuildFromFile rb db sender subj (some envv) fileBytes .docx name frid fsid now =
        ((.ok r, (determineSourceIDFromSenderEmail rb db sender fsid now).2),
          [Ev.fingerprint, Ev.assemble]) ∧
      r.id = frid ∧
      r.sourceID = (determineSourceIDFromSenderEmail rb db sender fsid now).1.1 ∧
      r.contentHash = GenerateHash fileBytes ∧
      r.excerpt = "Attached DOCX document." ∧
      r.title ≠ "" ∧
      r.format = .docx := by
  rcases hdet : determineSourceIDFromSenderEmail rb db sender fsid now with ⟨⟨srcId, srcErr⟩, db1⟩
  simp only [BuildFromFile, if_neg hb, hdet, htext]
  refine ⟨_, rfl, rfl, rfl, rfl, ?_, ?_, rfl⟩
  · rfl
  · apply fallbackTitle_ne_empty
    decide

/-! ## Claim C5: converter absence is non-fatal -/

/-- C5.  With the pandoc converter absent (no executable found at
construction, i.e. an empty pandoc path): every conversion attempt for
markdown, docx and rtf fails fast while returning the original bytes
under the original format; `ProcessContent` treats this as non-fatal and
proceeds with the original content; and ingesting a docx attachment
yields a stored reading with format docx rather than a failed message. -/
theorem claim_C5 :
    (∀ (c : Converter) (bytes : List Nat) (fmt : ReadingFormat),
        fmt = .md ∨ fmt = .docx ∨ fmt = .rtf → c.pandocPath = "" →
        Converter.ToHTML c bytes fmt =
          (bytes, fmt, some ("pandoc conversion required for " ++ fmt.str ++
            ", but pandoc executable was not found"))) ∧
    (∀ (ps : ContentPipelineService) (bytes : List Nat) (name : String) (fmt : ReadingFormat),
        fmt = .md ∨ fmt = .docx ∨ fmt = .rtf → ps.converter.pandocPath = "" →
        ProcessContent ps ⟨bytes, fmt, name⟩ = ((⟨bytes, fmt, none⟩, none), [Ev.normalize])) ∧
    (∀ (orch : IngestionOrchestrator) (db : DB) (userID sender subj : String)
        (env : Envelope) (frid fsid : String) (now ra : Nat) (bytes : List Nat) (name : String),
        orch.pipeline.converter.pandocPath = "" →
        findPriorityAttachment env = some (bytes, .docx, name) →
        bytes ≠ [] → env.text = "" →
        db.readings.find? (fun row => row.contentHash == GenerateHash bytes) = none →
        uuidParseOk userID = true → uuidParseOk frid = true →
        uuidParseOk
          (determineSourceIDFromSenderEmail orch.readingBuilder db sender fsid now).1.1 = true →
        (ProcessInboundEmail orch db userID sender subj env frid fsid now ra).1.1 = none ∧
        ∃ row : ReadingRow,
          (ProcessInboundEmail orch db userID sender subj env frid fsid now ra).1.2.readings =
            db.readings ++ [row] ∧
          row.format = "docx" ∧ row.contentHash = GenerateHash bytes ∧
          row.excerpt = "Attached DOCX document.") := by
  refine ⟨toHTML_absent, processContent_absent, ?_⟩
  intro orch db userID sender subj env frid fsid now ra bytes name
    hpath hsel hb htext hdup huser hfrid hsrcu
  obtain ⟨rC, hbuild, hrid, hrsrc, hrhash, hrex, hrtitle, hrfmt⟩ :=
    BuildFromFile_docx orch.readingBuilder db sender subj env bytes name frid fsid now hb htext
  have hpres := determineSourceID_preserves orch.readingBuilder db sender fsid now
  have hdup1 :
      ((determineSourceIDFromSenderEmail orch.readingBuilder db sender fsid now).2).readings.find?
        (fun row => row.contentHash == rC.contentHash) = none := by
    rw [hpres.1, hrhash]
    exact hdup
  obtain ⟨db', hpal, hreadings', hsources', hlinkpres, hlinkabs⟩ :=
    persistAndLink_new (determineSourceIDFromSenderEmail orch.readingBuilder db sender fsid now).2
      rC bytes .docx userID now ra hdup1
      (by rw [hrhash]; exact GenerateHash_ne_empty bytes)
      (by rw [hrhash]; exact GenerateHash_length bytes)
      (by rw [hrid]; exact hfrid)
      (by rw [hrsrc]; exact hsrcu)
      (by rw [hrex]; decide)
      hrtitle huser
  have hident : identifyPrimaryContent env = (.ok (bytes, .docx, name, true), [Ev.classify]) := by
    simp [identifyPrimaryContent, hsel]
  have hproc : processAttachedFile orch.pipeline bytes .docx name =
      ((bytes, .docx, none, none), [Ev.normalize]) := by
    simp [processAttachedFile, IsDirectReadingFormat,
      processContent_absent orch.pipeline bytes name .docx (Or.inr (Or.inl rfl)) hpath]
  have hfull : ProcessInboundEmail orch db userID sender subj env frid fsid now ra =
      ((none, db'),
        [Ev.classify] ++ [Ev.normalize] ++ [Ev.fingerprint, Ev.assemble] ++
          [Ev.dedupe, Ev.persist, Ev.link]) := by
    simp [ProcessInboundEmail, hident, hproc, hbuild, hpal]
  constructor
  · rw [hfull]
  · refine ⟨(filledReading rC bytes .docx userID).toRow, ?_, ?_, ?_, ?_⟩
    · rw [hfull]
      show db'.readings = _
      rw [hreadings', hpres.1]
    · show rC.format.str = "docx"
      rw [hrfmt]
      rfl
    · exact hrhash
    · exact hrex

/-- A converter constructed with no pandoc executable on the path. -/
def absentConverter : Converter := ⟨"", 30, fun _ _ => .error "pandoc is absent"⟩

/-- Orchestrator used by the C5 witness: absent converter, trivial
content processor and parsers. -/
def c5Orch : IngestionOrchestrator :=
  ⟨⟨absentConverter, fun _ _ => (none, none)⟩, ⟨false, fun _ => none, fun _ => none⟩⟩

/-- Envelope used by the C5 witness: one docx attachment, no bodies. -/
def c5Env : Envelope := ⟨"", "", [⟨"report.docx", "application/msword", [1, 2, 3, 4, 5]⟩], []⟩

/-- Witness for C5: a concrete docx attachment ingested with the
converter absent produces no error and exactly one stored row with
format docx. -/
theorem claim_C5_witness :
    (ProcessInboundEmail c5Orch ⟨[], [], []⟩ "11111111-1111-1111-1111-111111111111" "a@b.com"
        "Subj" c5Env "22222222-2222-2222-2222-222222222222"
        "33333333-3333-3333-3333-333333333333" 5 6).1.1 = none ∧
    ∃ row : ReadingRow,
      (ProcessInboundEmail c5Orch ⟨[], [], []⟩ "11111111-1111-1111-1111-111111111111" "a@b.com"
          "Subj" c5Env "22222222-2222-2222-2222-222222222222"
          "33333333-3333-3333-3333-333333333333" 5 6).1.2.readings =
        DB.readings ⟨[], [], []⟩ ++ [row] ∧
      row.format = "docx" ∧ row.contentHash = GenerateHash [1, 2, 3, 4, 5] ∧
      row.excerpt = "Attached DOCX document." :=
  claim_C5.2.2 c5Orch ⟨[], [], []⟩ "11111111-1111-1111-1111-111111111111" "a@b.com" "Subj"
    c5Env "22222222-2222-2222-2222-222222222222" "33333333-3333-3333-3333-333333333333" 5 6
    [1, 2, 3, 4, 5] "report.docx" rfl (by decide) (by decide) rfl rfl (by decide) (by decide)
    (by decide)

/-! ## Claim C1: idempotence of deduplication -/

/-- C1.  Two ingestions whose final content bytes are identical (hence
share the content hash `GenerateHash c`): the first persists exactly one
new reading row; the second creates no reading row and no content write,
reuses the identifier and storage path of the first, and only touches
the user link table — appending a link when the `(user, reading)` pair is
new, and leaving the table unchanged when the same user repeats.
Exactly one reading row with that hash exists afterwards. -/
theorem claim_C1 (db0 : DB) (r1 r2 : Reading) (c : List Nat)
    (fmt1 fmt2 : ReadingFormat) (u1 u2 : String) (n1 ra1 n2 ra2 : Nat)
    (hdup : db0.readings.find? (fun row => row.contentHash == GenerateHash c) = none)
    (hh1 : r1.contentHash = GenerateHash c)
    (hh2 : r2.contentHash = GenerateHash c)
    (hid1 : uuidParseOk r1.id = true) (hsrc1 : uuidParseOk r1.sourceID = true)
    (hex1 : r1.excerpt ≠ "") (ht1 : r1.title ≠ "")
    (hu1 : uuidParseOk u1 = true) (hu2 : uuidParseOk u2 = true) :
    ∃ db1 db2,
      (persistAndLink db0 r1 c fmt1 u1 n1 ra1).1 = .ok (db1, filledReading r1 c fmt1 u1) ∧
      db1.readings = db0.readings ++ [(filledReading r1 c fmt1 u1).toRow] ∧
      (persistAndLink db1 r2 c fmt2 u2 n2 ra2).1 =
        .ok (db2, { r2 with id := r1.id, storagePath := (filledReading r1 c fmt1 u1).storagePath }) ∧
      db2.readings = db1.readings ∧
      (db2.readings.filter (fun row => row.contentHash == GenerateHash c)).length = 1 ∧
      (u2 = u1 → db2.userReadings = db1.userReadings) ∧
      (db1.userReadings.any (fun l => l.userId == u2 && l.readingId == r1.id) = false →
        db2.userReadings = db1.userReadings ++ [⟨u2, r1.id, n2, ra2⟩]) := by
  obtain ⟨db1, hpal1, hreads1, hsrcs1, hlinkpres1, hlinkabs1⟩ :=
    persistAndLink_new db0 r1 c fmt1 u1 n1 ra1
      (by rw [hh1]; exact hdup)
      (by rw [hh1]; exact GenerateHash_ne_empty c)
      (by rw [hh1]; exact GenerateHash_length c)
      hid1 hsrc1 hex1 ht1 hu1
  have hfound2 : db1.readings.find? (fun row => row.contentHash == r2.contentHash) =
      some ((filledReading r1 c fmt1 u1).toRow) := by
    rw [hreads1, hh2, find?_append_of_none _ _ _ hdup]
    simp [List.find?, filledReading, Reading.toRow, hh1]
  obtain ⟨db2, hpal2, hreads2, hsrcs2, hpres2, habs2⟩ :=
    persistAndLink_dup db1 r2 c fmt2 u2 n2 ra2 ((filledReading r1 c fmt1 u1).toRow)
      (by rw [hh2]; exact GenerateHash_ne_empty c)
      (by rw [hh2]; exact GenerateHash_length c)
      hfound2 hu2 hid1
  refine ⟨db1, db2, ?_, hreads1, ?_, hreads2, ?_, ?_, ?_⟩
  · rw [hpal1]
  · rw [hpal2]
    rfl
  · rw [hreads2, hreads1, List.filter_append]
    have hnil : db0.readings.filter (fun row => row.contentHash == GenerateHash c) = [] := by
      rw [List.filter_eq_nil_iff]
      intro a ha
      have := List.find?_eq_none.mp hdup a ha
      simpa using this
    rw [hnil]
    simp [filledReading, Reading.toRow, hh1]
  · intro h
    subst h
    have hdb : db2 = db1 := hpres2 hlinkpres1
    rw [hdb]
  · intro h
    exact habs2 h

/-- First assembled reading of the C1 witness, hashing the bytes
`[104, 105]`. -/
def c1First : Reading :=
  ⟨"22222222-2222-2222-2222-222222222222", "33333333-3333-3333-3333-333333333333",
    "Author A", 1, GenerateHash [104, 105], [], "First excerpt", none, "", "Title A", .txt⟩

/-- Second assembled reading of the C1 witness, carrying the same
content hash because it was built from the same bytes. -/
def c1Second : Reading :=
  ⟨"55555555-5555-5555-5555-555555555555", "33333333-3333-3333-3333-333333333333",
    "Author B", 2, GenerateHash [104, 105], [], "Second excerpt", none, "", "Title B", .txt⟩

/-- Witness for C1: the same two-byte content ingested for two distinct
users on an empty database: one stored row, the second ingestion reusing
its identifier and path and linking the second user. -/
theorem claim_C1_witness :
    ∃ db1 db2,
      (persistAndLink ⟨[], [], []⟩ c1First [104, 105] .txt
          "11111111-1111-1111-1111-111111111111" 1 2).1 =
        .ok (db1, filledReading c1First [104, 105] .txt
          "11111111-1111-1111-1111-111111111111") ∧
      db1.readings = DB.readings ⟨[], [], []⟩ ++
        [(filledReading c1First [104, 105] .txt "11111111-1111-1111-1111-111111111111").toRow] ∧
      (persistAndLink db1 c1Second [104, 105] .txt
          "99999999-9999-9999-9999-999999999999" 3 4).1 =
        .ok (db2, { c1Second with id := c1First.id, storagePath := (filledReading c1First [104, 105] .txt "11111111-1111-1111-1111-111111111111").storagePath }) ∧
      db2.readings = db1.readings ∧
      (db2.readings.filter (fun row => row.contentHash == GenerateHash [104, 105])).length = 1 ∧
      ("99999999-9999-9999-9999-999999999999" = "11111111-1111-1111-1111-111111111111" →
        db2.userReadings = db1.userReadings) ∧
      (db1.userReadings.any (fun l =>
          l.userId == "99999999-9999-9999-9999-999999999999" && l.readingId == c1First.id) =
            false →
        db2.userReadings = db1.userReadings ++
          [⟨"99999999-9999-9999-9999-999999999999", c1First.id, 3, 4⟩]) :=
  claim_C1 ⟨[], [], []⟩ c1First c1Second [104, 105] .txt .txt
    "11111111-1111-1111-1111-111111111111" "99999999-9999-9999-9999-999999999999" 1 2 3 4
    rfl rfl rfl (by decide) (by decide) (by decide) (by decide) (by decide) (by decide)

/-! ## Claim C3: priority-ordered attachment selection -/

/-- Qualification of an attachment for a tier, written from the words of
the spec: a match occurs if the filename extension equals the tier
extension or the declared content type matches the known mapping for the
tier, and an attachment below the minimum byte size is rejected unless
its extension matches the tier exactly. -/
def specQualifies (pFormat : PrioritizedFormat) (a : Attachment) : Bool :=
  (AttachmentExtensionMatches a.fileName pFormat.extension ||
      (MatchAttachmentByContentType a pFormat (parseMediaTypeBase a.contentType)).isSome) &&
    (decide (minAttachmentSizeBytes ≤ a.content.length) ||
      AttachmentExtensionMatches a.fileName pFormat.extension)

/-- Selection strategy written from the words of the spec: scan the
fixed priority list tier by tier; the first tier containing a qualifying
attachment wins, and within the tier the first qualifying attachment in
envelope order is chosen, yielding its content, the tier format and its
file name. -/
def specPrioritySelection (env : Envelope) : Option (List Nat × ReadingFormat × String) :=
  priorityOrder.findSome? (fun p =>
    (env.attachments.find? (fun a => specQualifies p a)).map
      (fun a => (a.content, p.format, a.fileName)))

/-- A content-type match always returns the content, tier format and
file name of the attachment. -/
theorem matchCT_shape (a : Attachment) (p : PrioritizedFormat) (ct : String) :
    MatchAttachmentByContentType a p ct = none ∨
    MatchAttachmentByContentType a p ct = some (a.content, p.format, a.fileName) := by
  cases hf : p.format <;>
    simp only [MatchAttachmentByContentType, hf] <;>
    first
      | exact Or.inl rfl
      | exact Or.inl trivial
      | (split
         · exact Or.inr rfl
         · exact Or.inl rfl)

/-- The per-attachment check agrees with the spec-side qualification
predicate and result. -/
theorem check_eq_spec (a : Attachment) (p : PrioritizedFormat) :
    checkAttachmentAgainstPriority a p minAttachmentSizeBytes =
      if specQualifies p a then some (a.content, p.format, a.fileName) else none := by
  by_cases hsize : a.content.length < minAttachmentSizeBytes
  · have hs : decide (minAttachmentSizeBytes ≤ a.content.length) = false := by
      simp [Nat.not_le.mpr hsize]
    cases hext : AttachmentExtensionMatches a.fileName p.extension
    · simp [checkAttachmentAgainstPriority, specQualifies, hext, hsize, hs]
    · simp [checkAttachmentAgainstPriority, specQualifies, hext, hsize, hs]
  · have hs : decide (minAttachmentSizeBytes ≤ a.content.length) = true := by
      simp [Nat.le_of_not_lt hsize]
    cases hext : AttachmentExtensionMatches a.fileName p.extension
    · rcases matchCT_shape a p (parseMediaTypeBase a.contentType) with hm | hm <;>
        simp [checkAttachmentAgainstPriority, specQualifies, hext, hsize, hs, hm]
    · simp [checkAttachmentAgainstPriority, specQualifies, hext, hsize, hs]

/-- The inner attachment loop agrees with find-first-qualifying. -/
theorem findInAttachments_eq_spec (p : PrioritizedFormat) (atts : List Attachment) :
    findInAttachments p atts =
      (atts.find? (fun a => specQualifies p a)).map
        (fun a => (a.content, p.format, a.fileName)) := by
  induction atts with
  | nil => rfl
  | cons a tl ih =>
      rw [findInAttachments] at ih ⊢
      rw [List.findSome?_cons, check_eq_spec, List.find?_cons]
      cases hq : specQualifies p a <;> simp [hq, ih]

/-- C3.  `findPriorityAttachment` equals the spec-side priority
selection on every envelope (fixed tier order pdf, epub, mobi, docx,
rtf, md, txt, text; first tier with a qualifying attachment wins; first
qualifying attachment in envelope order within the tier), and whenever
some attachment qualifies for the pdf tier the selected format is pdf —
so a message carrying both a qualifying txt attachment and a qualifying
pdf attachment selects the pdf and ignores the text attachment. -/
theorem claim_C3 :
    (∀ env : Envelope, findPriorityAttachment env = specPrioritySelection env) ∧
    (∀ env : Envelope,
      (∃ a ∈ env.attachments, specQualifies ⟨".pdf", .pdf⟩ a = true) →
      ∃ bs nm, findPriorityAttachment env = some (bs, .pdf, nm)) := by
  have hmain : ∀ env : Envelope, findPriorityAttachment env = specPrioritySelection env := by
    intro env
    unfold findPriorityAttachment specPrioritySelection
    exact congrArg (fun f => List.findSome? f priorityOrder)
      (funext (fun p => findInAttachments_eq_spec p env.attachments))
  refine ⟨hmain, ?_⟩
  rintro env ⟨a, ha, hq⟩
  rw [hmain]
  obtain ⟨b, hb⟩ := Option.isSome_iff_exists.mp
    (List.find?_isSome.mpr ⟨a, ha, hq⟩)
  exact ⟨b.content, b.fileName, by simp [specPrioritySelection, priorityOrder,
    List.findSome?_cons, hb]⟩

/-- Envelope of the C3 witness: a qualifying txt attachment listed
before a qualifying pdf attachment. -/
def c3Env : Envelope :=
  ⟨"", "", [⟨"note.txt", "text/plain", List.replicate 200 65⟩,
    ⟨"doc.pdf", "application/pdf", List.replicate 200 37⟩], []⟩

/-- Witness for C3: on the concrete envelope with both a txt and a pdf
attachment, the selection returns the pdf, and it agrees with the
spec-side selection. -/
theorem claim_C3_witness :
    findPriorityAttachment c3Env = some (List.replicate 200 37, .pdf, "doc.pdf") ∧
    specPrioritySelection c3Env = findPriorityAttachment c3Env := by
  refine ⟨by decide, (claim_C3.1 c3Env).symm⟩

/-- C2.  On the duplicate branch of deduplication the database is
returned entirely unchanged (so every field of every stored row,
including the found one, is untouched), and the pipeline continues with
the existing identifier and storage path in place of the freshly
assembled ones; even after the linking step the readings table is
unchanged, so the freshly computed metadata is never persisted. -/
theorem claim_C2 (db : DB) (r : Reading) (c : List Nat) (fmt : ReadingFormat)
    (userID : String) (now receivedAt : Nat) (ex : ReadingRow)
    (hhne : r.contentHash ≠ "") (hhlen : r.contentHash.length = 64)
    (hfound : db.readings.find? (fun row => row.contentHash == r.contentHash) = some ex) :
    processReadingPersistenceAndDeduplication db r c fmt userID =
      (.ok (db, { r with id := ex.id, storagePath := ex.storagePath }), [Ev.dedupe]) ∧
    (∀ db2 r2,
      (persistAndLink db r c fmt userID now receivedAt).1 = .ok (db2, r2) →
      db2.readings = db.readings ∧ db2.sources = db.sources ∧
      r2 = { r with id := ex.id, storagePath := ex.storagePath }) := by
  have hget : GetReadingByContentHash db r.contentHash = .ok (some ex) := by
    simp [GetReadingByContentHash, hhne, hhlen, hfound]
  have hdedup : processReadingPersistenceAndDeduplication db r c fmt userID =
      (.ok (db, { r with id := ex.id, storagePath := ex.storagePath }), [Ev.dedupe]) := by
    simp only [processReadingPersistenceAndDeduplication, hget]
  refine ⟨hdedup, ?_⟩
  intro db2 r2 hok
  simp only [persistAndLink, hdedup] at hok
  cases hadd : AddUserReading db userID
      ({ r with id := ex.id, storagePath := ex.storagePath } : Reading).id now receivedAt with
  | error e =>
      rw [hadd] at hok
      simp only at hok
      cases hok
      exact ⟨rfl, rfl, rfl⟩
  | ok db3 =>
      rw [hadd] at hok
      simp only at hok
      cases hok
      obtain ⟨h1, h2⟩ := AddUserReading_state _ _ _ _ _ _ hadd
      exact ⟨h1, h2, rfl⟩

/-- Stored row used by the C2 witness. -/
def dupRow : ReadingRow :=
  ⟨"22222222-2222-2222-2222-222222222222", "33333333-3333-3333-3333-333333333333",
    "Old Author", 1, "aaaaaaaaaaaaaaaaaaaaaaaaaaaaaaaaaaaaaaaaaaaaaaaaaaaaaaaaaaaaaaaa",
    "Old excerpt", "pdf", none, "readings/u/old.pdf", "Old Title"⟩

/-- Database used by the C2 witness. -/
def dupDB : DB := ⟨[dupRow], [], []⟩

/-- Freshly assembled reading used by the C2 witness, carrying the same
content hash as the stored row. -/
def dupReading : Reading :=
  ⟨"55555555-5555-5555-5555-555555555555", "33333333-3333-3333-3333-333333333333",
    "New Author", 2, "aaaaaaaaaaaaaaaaaaaaaaaaaaaaaaaaaaaaaaaaaaaaaaaaaaaaaaaaaaaaaaaa",
    [1, 2], "New excerpt", none, "", "New Title", .pdf⟩

/-- Witness for C2: a database holding one row with a known hash, and a
second reading carrying the same hash: the duplicate branch returns the
database unchanged and reuses the stored identifier and path. -/
theorem claim_C2_witness :
    processReadingPersistenceAndDeduplication dupDB dupReading [1, 2] .pdf
        "11111111-1111-1111-1111-111111111111" =
      (.ok (dupDB, { dupReading with id := dupRow.id, storagePath := dupRow.storagePath }),
        [Ev.dedupe]) :=
  (claim_C2 dupDB dupReading [1, 2] .pdf "11111111-1111-1111-1111-111111111111" 9 9 dupRow
    (by decide) (by decide) (by decide)).1

/-! ## Claim C4: excerpt truncation -/

/-- Unicode scalar values are determined by their numeric value. -/
theorem charToNat_inj (a b : Char) (h : a.toNat = b.toNat) : a = b := by
  have := congrArg Char.ofNat h
  rwa [Char.ofNat_toNat, Char.ofNat_toNat] at this

/-- Boolean equality commutes with the numeric view of characters. -/
theorem charBeq_toNat (a b : Char) : (a.toNat == b.toNat) = (a == b) := by
  cases hab : a == b
  · have hne : a ≠ b := by
      intro hc
      subst hc
      simp at hab
    have hnn : a.toNat ≠ b.toNat := fun hc => hne (charToNat_inj _ _ hc)
    simp [hnn]
  · have : a = b := by simpa using hab
    subst this
    simp

/-- Prefix testing commutes with the numeric view of characters. -/
theorem isPrefixOf_map (p l : List Char) :
    (p.map Char.toNat).isPrefixOf (l.map Char.toNat) = p.isPrefixOf l := by
  induction p generalizing l with
  | nil => simp [List.isPrefixOf]
  | cons a tp ih =>
      cases l with
      | nil => simp [List.isPrefixOf]
      | cons b tl => simp [List.isPrefixOf, ih, charBeq_toNat]

/-- Index of the last occurrence of a pattern, at character level. -/
def lastOccurrence (cs pat : List Char) : Option Nat :=
  ((List.range (cs.length + 1)).filter (fun i => pat.isPrefixOf (cs.drop i))).max?

/-- The byte-level last-occurrence search agrees with the character
level one under the numeric view. -/
theorem lastIndexNat_map (l p : List Char) :
    lastIndexNat (l.map Char.toNat) (p.map Char.toNat) = lastOccurrence l p := by
  unfold lastIndexNat lastOccurrence
  rw [List.length_map]
  congr 1
  apply List.filter_congr
  intro i _
  rw [← List.map_drop, isPrefixOf_map]

/-- ASCII character lists encode to their numeric values byte for
byte. -/
theorem utf8EncodeChars_ascii (cs : List Char) (h : ∀ ch ∈ cs, ch.toNat < 128) :
    utf8EncodeChars cs = cs.map Char.toNat := by
  induction cs with
  | nil => rfl
  | cons a tl ih =>
      have ha : a.toNat < 128 := h a (List.mem_cons_self a tl)
      have htl := ih (fun ch hm => h ch (List.mem_cons_of_mem a hm))
      show utf8EncodeChar a.toNat ++ utf8EncodeChars tl = _
      rw [htl, show utf8EncodeChar a.toNat = [a.toNat] from by simp [utf8EncodeChar, ha]]
      rfl

/-- Trimming only removes characters. -/
theorem trimSpace_mem (s : String) : ∀ ch ∈ (trimSpace s).data, ch ∈ s.data := by
  intro ch hm
  simp only [trimSpace, List.mem_reverse] at hm
  have h2 : ch ∈ (s.data.dropWhile isGoSpace).reverse :=
    (List.dropWhile_sublist _).subset hm
  rw [List.mem_reverse] at h2
  exact (List.dropWhile_sublist _).subset h2

/-- Byte length equals character length for ASCII strings. -/
theorem goLen_ascii (s : String) (h : ∀ ch ∈ s.data, ch.toNat < 128) :
    goLen s = s.data.length := by
  unfold goLen strBytes
  rw [utf8EncodeChars_ascii s.data h, List.length_map]

/-- A found occurrence leaves room for the whole pattern. -/
theorem lastOccurrence_le (cs pat : List Char) (i : Nat)
    (h : lastOccurrence cs pat = some i) : i + pat.length ≤ cs.length := by
  unfold lastOccurrence at h
  have hmem := List.max?_mem (fun a b => max_choice a b) h
  rw [List.mem_filter, List.mem_range] at hmem
  obtain ⟨hir, hpre⟩ := hmem
  have hp : pat <+: cs.drop i := by rwa [← List.isPrefixOf_iff_prefix]
  have hl := hp.length_le
  rw [List.length_drop] at hl
  omega

/-- Sentence-boundary cut, from the words of the spec: the last
occurrence of a period-space in the first 250 characters, kept only when
it lies in the last 75 characters of the cap (index above 175). -/
def sentenceCut (trimmed : List Char) : Option (List Char) :=
  (lastOccurrence (trimmed.take 250) ['.', ' ']).bind (fun i =>
    if 0 < i ∧ 175 < i then some (trimmed.take (i + 1)) else none)

/-- Word-boundary cut, from the words of the spec: the last space in
the first 250 characters, kept only when it lies in the last 100
characters of the cap (index above 150). -/
def wordCut (trimmed : List Char) : Option (List Char) :=
  (lastOccurrence (trimmed.take 250) [' ']).bind (fun i =>
    if 0 < i ∧ 150 < i then some (trimmed.take i) else none)

/-- Excerpt of trimmed text, from the words of the spec with the
corrected length bound: unchanged when at most 250 characters, else the
preferred cut (sentence boundary, then word boundary, then a hard cut at
250) followed by the three-character ellipsis marker. -/
def excerptSpec (trimmed : List Char) : List Char :=
  if trimmed.length ≤ 250 then trimmed
  else ((sentenceCut trimmed).getD ((wordCut trimmed).getD (trimmed.take 250))) ++ ['.', '.', '.']

/-- A sentence cut keeps at most 249 characters. -/
theorem sentenceCut_length (cs r : List Char) (h : sentenceCut cs = some r) :
    r.length ≤ 249 := by
  unfold sentenceCut at h
  rcases hocc : lastOccurrence (cs.take 250) ['.', ' '] with _ | i <;> rw [hocc] at h
  · cases h
  · simp only [Option.some_bind] at h
    by_cases hc : 0 < i ∧ 175 < i
    · rw [if_pos hc] at h
      injection h with h
      subst h
      have hb := lastOccurrence_le _ _ _ hocc
      rw [List.length_take] at hb
      simp only [List.length_cons, List.length_nil] at hb
      simp only [List.length_take]
      omega
    · rw [if_neg hc] at h
      cases h

/-- A word cut keeps at most 249 characters. -/
theorem wordCut_length (cs r : List Char) (h : wordCut cs = some r) :
    r.length ≤ 249 := by
  unfold wordCut at h
  rcases hocc : lastOccurrence (cs.take 250) [' '] with _ | i <;> rw [hocc] at h
  · cases h
  · simp only [Option.some_bind] at h
    by_cases hc : 0 < i ∧ 150 < i
    · rw [if_pos hc] at h
      injection h with h
      subst h
      have hb := lastOccurrence_le _ _ _ hocc
      rw [List.length_take] at hb
      simp only [List.length_cons, List.length_nil] at hb
      simp only [List.length_take]
      omega
    · rw [if_neg hc] at h
      cases h

/-- The spec-side excerpt never exceeds 253 characters. -/
theorem excerptSpec_length (cs : List Char) : (excerptSpec cs).length ≤ 253 := by
  unfold excerptSpec
  split
  · omega
  · cases hs : sentenceCut cs with
    | some r =>
        have hr := sentenceCut_length cs r hs
        simp only [hs, Option.getD_some, List.length_append, List.length_cons,
          List.length_nil]
        omega
    | none =>
        cases hw : wordCut cs with
        | some r =>
            have hr := wordCut_length cs r hw
            simp only [hs, hw, Option.getD_some, Option.getD_none, List.length_append,
              List.length_cons, List.length_nil]
            omega
        | none =>
            simp only [hs, hw, Option.getD_none, List.length_append, List.length_take,
              List.length_cons, List.length_nil]
            omega

/-- C4 as stated is false on the code: a 300-character input with no
sentence or word boundary is hard-cut at 250 and the ellipsis marker is
appended, producing 253 characters, which exceeds the claimed cap of
250. -/
theorem claim_C4_counterexample :
    (generateExcerptFromText (String.mk (List.replicate 300 'a'))).length = 253 ∧
    ¬ (generateExcerptFromText (String.mk (List.replicate 300 'a'))).length ≤ 250 := by
  decide

/-- C4 amended.  For single-byte (ASCII) plain text, the excerpt equals
the spec-side excerpt: the whitespace-trimmed text unchanged when at
most 250 characters, else the preferred truncation (last sentence
boundary within the last 75 characters of the cap, else last word
boundary within the last 100, else a hard cut at 250) followed by the
ellipsis marker; the result never exceeds 253 characters (250 content
characters plus the three-character marker), not 250 as claimed. -/
theorem claim_C4_amended (s : String) (hascii : ∀ ch ∈ s.data, ch.toNat < 128) :
    (generateExcerptFromText s).data = excerptSpec (trimSpace s).data ∧
    (generateExcerptFromText s).length ≤ 253 := by
  have hta : ∀ ch ∈ (trimSpace s).data, ch.toNat < 128 :=
    fun ch hm => hascii ch (trimSpace_mem s ch hm)
  have hglen : goLen (trimSpace s) = (trimSpace s).data.length := goLen_ascii _ hta
  have heq : (generateExcerptFromText s).data = excerptSpec (trimSpace s).data := by
    by_cases h0 : (trimSpace s).data.length = 0
    · have htnil : (trimSpace s).data = [] := List.length_eq_zero.mp h0
      simp only [generateExcerptFromText]
      rw [hglen, if_pos h0, htnil]
      simp [excerptSpec]
    · by_cases h1 : (trimSpace s).data.length ≤ 250
      · simp only [generateExcerptFromText]
        rw [hglen, if_neg h0, if_pos h1]
        simp only [excerptSpec]
        rw [if_pos h1]
      · have htmpa : ∀ ch ∈ (trimSpace s).data.take 250, ch.toNat < 128 :=
          fun ch hm => hta ch ((List.take_sublist _ _).subset hm)
        have hsb : strBytes (String.mk ((trimSpace s).data.take 250)) =
            ((trimSpace s).data.take 250).map Char.toNat :=
          utf8EncodeChars_ascii _ htmpa
        have hlp : goLastIndex (strBytes (String.mk ((trimSpace s).data.take 250)))
            (strBytes ". ") =
            (match lastOccurrence ((trimSpace s).data.take 250) ['.', ' '] with
             | some i => (i : Int)
             | none => -1) := by
          rw [hsb]
          show goLastIndex _ (['.', ' '].map Char.toNat) = _
          unfold goLastIndex
          rw [lastIndexNat_map]
        have hls : goLastIndex (strBytes (String.mk ((trimSpace s).data.take 250)))
            (strBytes " ") =
            (match lastOccurrence ((trimSpace s).data.take 250) [' '] with
             | some i => (i : Int)
             | none => -1) := by
          rw [hsb]
          show goLastIndex _ ([' '].map Char.toNat) = _
          unfold goLastIndex
          rw [lastIndexNat_map]
        simp only [generateExcerptFromText]
        rw [hglen, if_neg h0, if_neg h1, if_neg h1, hlp, hls]
        cases hocc : lastOccurrence ((trimSpace s).data.take 250) ['.', ' '] with
        | some i =>
            dsimp only
            by_cases hc : 0 < i ∧ 175 < i
            · have hcint : ((i : Int) > 0 ∧ (i : Int) > ((250 : Nat) : Int) - 75) := by
                constructor <;> [omega; omega]
              rw [if_pos hcint]
              simp only [Int.toNat_natCast, String.data_append]
              unfold excerptSpec sentenceCut
              rw [if_neg h1, hocc]
              simp only [Option.some_bind, if_pos hc, Option.getD_some]
            · have hcint : ¬ ((i : Int) > 0 ∧ (i : Int) > ((250 : Nat) : Int) - 75) := by omega
              rw [if_neg hcint]
              cases hocc2 : lastOccurrence ((trimSpace s).data.take 250) [' '] with
              | some j =>
                  dsimp only
                  by_cases hc2 : 0 < j ∧ 150 < j
                  · have hcint2 : ((j : Int) > 0 ∧ (j : Int) > ((250 : Nat) : Int) - 100) := by
                      constructor <;> [omega; omega]
                    rw [if_pos hcint2]
                    simp only [Int.toNat_natCast, String.data_append]
                    unfold excerptSpec sentenceCut wordCut
                    rw [if_neg h1, hocc, hocc2]
                    simp only [Option.some_bind, if_neg hc, if_pos hc2, Option.getD_some,
                      Option.getD_none]
                  · have hcint2 : ¬ ((j : Int) > 0 ∧ (j : Int) > ((250 : Nat) : Int) - 100) := by
                      omega
                    rw [if_neg hcint2]
                    simp only [String.data_append]
                    unfold excerptSpec sentenceCut wordCut
                    rw [if_neg h1, hocc, hocc2]
                    simp only [Option.some_bind, if_neg hc, if_neg hc2, Option.getD_none]
              | none =>
                  dsimp only
                  have hcint2 : ¬ ((-1 : Int) > 0 ∧ (-1 : Int) > ((250 : Nat) : Int) - 100) := by
                    omega
                  rw [if_neg hcint2]
                  simp only [String.data_append]
                  unfold excerptSpec sentenceCut wordCut
                  rw [if_neg h1, hocc, hocc2]
                  simp only [Option.some_bind, if_neg hc, Option.none_bind, Option.getD_none]
        | none =>
            dsimp only
            have hcint : ¬ ((-1 : Int) > 0 ∧ (-1 : Int) > ((250 : Nat) : Int) - 75) := by omega
            rw [if_neg hcint]
            cases hocc2 : lastOccurrence ((trimSpace s).data.take 250) [' '] with
            | some j =>
                dsimp only
                by_cases hc2 : 0 < j ∧ 150 < j
                · have hcint2 : ((j : Int) > 0 ∧ (j : Int) > ((250 : Nat) : Int) - 100) := by
                    constructor <;> [omega; omega]
                  rw [if_pos hcint2]
                  simp only [Int.toNat_natCast, String.data_append]
                  unfold excerptSpec sentenceCut wordCut
                  rw [if_neg h1, hocc, hocc2]
                  simp only [Option.none_bind, Option.some_bind, if_pos hc2,
                    Option.getD_some, Option.getD_none]
                · have hcint2 : ¬ ((j : Int) > 0 ∧ (j : Int) > ((250 : Nat) : Int) - 100) := by
                    omega
                  rw [if_neg hcint2]
                  simp only [String.data_append]
                  unfold excerptSpec sentenceCut wordCut
                  rw [if_neg h1, hocc, hocc2]
                  simp only [Option.none_bind, Option.some_bind, if_neg hc2,
                    Option.getD_none]
            | none =>
                dsimp only
                have hcint2 : ¬ ((-1 : Int) > 0 ∧ (-1 : Int) > ((250 : Nat) : Int) - 100) := by
                  omega
                rw [if_neg hcint2]
                simp only [String.data_append]
                unfold excerptSpec sentenceCut wordCut
                rw [if_neg h1, hocc, hocc2]
                simp only [Option.none_bind, Option.getD_none]
  refine ⟨heq, ?_⟩
  have : (generateExcerptFromText s).length = (generateExcerptFromText s).data.length := rfl
  rw [this, heq]
  exact excerptSpec_length _

/-- Example input of the C4 witness: 400 characters with a sentence
boundary at character 200. -/
def c4Example : String :=
  String.mk (List.replicate 199 'b' ++ ['.', ' '] ++ List.replicate 199 'c')

/-- Witness for the amended C4 at the spec example: the amended theorem
applies, and at this input the excerpt ends at the sentence boundary
followed by the ellipsis marker with length at most 250. -/
theorem claim_C4_witness :
    ((generateExcerptFromText c4Example).data = excerptSpec (trimSpace c4Example).data ∧
      (generateExcerptFromText c4Example).length ≤ 253) ∧
    generateExcerptFromText c4Example =
      String.mk (List.replicate 199 'b' ++ ['.']) ++ "..." ∧
    (generateExcerptFromText c4Example).length ≤ 250 := by
  refine ⟨claim_C4_amended c4Example (by decide), by decide, by decide⟩

/-! ## Claim C8: stage ordering -/

/-- The full corrected stage order of one pipeline run. -/
def fullStageOrder : List Ev :=
  [Ev.classify, Ev.normalize, Ev.extract, Ev.fingerprint, Ev.assemble,
   Ev.dedupe, Ev.persist, Ev.link]

/-- Content identification always traces exactly the classify stage. -/
theorem identify_trace (env : Envelope) : (identifyPrimaryContent env).2 = [Ev.classify] := by
  unfold identifyPrimaryContent
  cases h : findPriorityAttachment env with
  | none =>
      by_cases h1 : env.html ≠ "" <;> by_cases h2 : env.text ≠ "" <;> simp [h1, h2]
  | some v =>
      rcases v with ⟨a, b, c⟩
      rfl

/-- The content processor stage traces at most the extract stage. -/
theorem processHTML_trace (ps : ContentPipelineService) (b : List Nat) (n : String) :
    List.Sublist (processHTMLWithContentProcessor ps b n).2 [Ev.extract] := by
  unfold processHTMLWithContentProcessor
  repeat' first
    | split
    | dsimp only
  all_goals
    first
      | exact List.nil_sublist _
      | exact List.Sublist.refl _

/-- The pipeline traces at most normalize then extract, in order. -/
theorem processContent_trace (ps : ContentPipelineService) (input : ContentInput) :
    List.Sublist (ProcessContent ps input).2 [Ev.normalize, Ev.extract] := by
  unfold ProcessContent
  repeat' first
    | split
    | dsimp only
  all_goals
    first
      | exact List.nil_sublist _
      | exact List.Sublist.append (List.Sublist.refl [Ev.normalize])
          (List.nil_sublist [Ev.extract])
      | exact List.Sublist.append (List.Sublist.refl [Ev.normalize])
          (processHTML_trace ps _ _)
      | exact (processHTML_trace ps _ _).trans
          ((List.nil_sublist [Ev.normalize]).append (List.Sublist.refl [Ev.extract]))

/-- Attachment processing traces at most normalize then extract. -/
theorem processAttachedFile_trace (ps : ContentPipelineService) (bytes : List Nat)
    (fmtv : ReadingFormat) (name : String) :
    List.Sublist (processAttachedFile ps bytes fmtv name).2 [Ev.normalize, Ev.extract] := by
  unfold processAttachedFile
  split
  · exact List.nil_sublist _
  · cases hp : ProcessContent ps ⟨bytes, fmtv, name⟩ with
    | mk r evs =>
      rcases r with ⟨out, err⟩
      have hb : List.Sublist evs [Ev.normalize, Ev.extract] := by
        have := processContent_trace ps ⟨bytes, fmtv, name⟩
        rwa [hp] at this
      dsimp only
      split
      · exact hb
      · exact hb

/-- Body processing traces at most normalize then extract. -/
theorem processEmailBody_trace (ps : ContentPipelineService) (bytes : List Nat)
    (fmtv : ReadingFormat) :
    List.Sublist (processEmailBody ps bytes fmtv).2 [Ev.normalize, Ev.extract] := by
  unfold processEmailBody
  cases hp : ProcessContent ps
      ⟨bytes, fmtv, "email_body." ++ asciiLower fmtv.str⟩ with
  | mk r evs =>
    rcases r with ⟨out, err⟩
    have hb : List.Sublist evs [Ev.normalize, Ev.extract] := by
      have := processContent_trace ps ⟨bytes, fmtv, "email_body." ++ asciiLower fmtv.str⟩
      rwa [hp] at this
    dsimp only
    split
    · exact hb
    · exact hb

/-- Building from HTML traces at most fingerprint then assemble. -/
theorem buildFromHTML_trace (rb : ReadingBuilder) (db : DB) (a w : String)
    (env : Option Envelope) (pc : Option ProcessedContent) (frid fsid : String) (now : Nat) :
    List.Sublist (BuildFromHTML rb db a w env pc frid fsid now).2
      [Ev.fingerprint, Ev.assemble] := by
  unfold BuildFromHTML
  repeat' first
    | split
    | dsimp only
  all_goals
    first
      | exact List.nil_sublist _
      | exact List.Sublist.refl _

/-- Building from a file traces at most fingerprint then assemble. -/
theorem buildFromFile_trace (rb : ReadingBuilder) (db : DB) (a w : String)
    (env : Option Envelope) (fileBytes : List Nat) (fmtv : ReadingFormat)
    (name frid fsid : String) (now : Nat) :
    List.Sublist (BuildFromFile rb db a w env fileBytes fmtv name frid fsid now).2
      [Ev.fingerprint, Ev.assemble] := by
  unfold BuildFromFile
  repeat' first
    | split
    | dsimp only
  all_goals
    first
      | exact List.nil_sublist _
      | exact List.Sublist.refl _

/-- Persistence traces at most dedupe then persist. -/
theorem persistence_trace (db : DB) (r : Reading) (c : List Nat) (fmtv : ReadingFormat)
    (u : String) :
    List.Sublist (processReadingPersistenceAndDeduplication db r c fmtv u).2
      [Ev.dedupe, Ev.persist] := by
  unfold processReadingPersistenceAndDeduplication
  repeat' first
    | split
    | dsimp only
  all_goals
    first
      | exact List.Sublist.refl _
      | exact List.Sublist.append (List.Sublist.refl [Ev.dedupe])
          (List.nil_sublist [Ev.persist])

/-- Persistence plus linkage traces at most dedupe, persist, link. -/
theorem persistAndLink_trace (db : DB) (r : Reading) (c : List Nat) (fmtv : ReadingFormat)
    (u : String) (n ra : Nat) :
    List.Sublist (persistAndLink db r c fmtv u n ra).2
      [Ev.dedupe, Ev.persist, Ev.link] := by
  unfold persistAndLink
  cases hp : processReadingPersistenceAndDeduplication db r c fmtv u with
  | mk res evs =>
    have hb : List.Sublist evs [Ev.dedupe, Ev.persist] := by
      have := persistence_trace db r c fmtv u
      rwa [hp] at this
    cases res with
    | error e =>
        dsimp only
        exact hb.trans ((List.Sublist.refl [Ev.dedupe, Ev.persist]).append
          (List.nil_sublist [Ev.link]))
    | ok v =>
        rcases v with ⟨db2, r2⟩
        dsimp only
        cases ha : AddUserReading db2 u r2.id n ra <;> dsimp only <;>
          exact List.Sublist.append hb (List.Sublist.refl [Ev.link])

/-- C8 amended.  Within one pipeline run the stages that execute do so
strictly in the order classify, normalize, extract, fingerprint,
assemble, dedupe, persist, link: every run trace is a sublist of that
sequence.  In particular the fingerprint is computed before the
deduplication lookup, but the reading record is assembled before the
lookup, not after it. -/
theorem claim_C8_amended (orch : IngestionOrchestrator) (db : DB)
    (userID actualSenderEmail webhookSubject : String) (env : Envelope)
    (freshReadingId freshSourceId : String) (now receivedAt : Nat) :
    List.Sublist
      (ProcessInboundEmail orch db userID actualSenderEmail webhookSubject env
        freshReadingId freshSourceId now receivedAt).2 fullStageOrder := by
  unfold ProcessInboundEmail
  cases hident : identifyPrimaryContent env with
  | mk res ev1 =>
    have hev1 : ev1 = [Ev.classify] := by
      have := identify_trace env
      rwa [hident] at this
    subst hev1
    cases res with
    | error e =>
        try dsimp only
        exact (List.Sublist.refl [Ev.classify]).append (List.nil_sublist _)
    | ok v =>
        rcases v with ⟨rawBytes, fmtv, name, isAtt⟩
        try dsimp only
        cases hproc : (if isAtt then processAttachedFile orch.pipeline rawBytes fmtv name
            else processEmailBody orch.pipeline rawBytes fmtv) with
        | mk pr ev2 =>
          rcases pr with ⟨fc, ff, pd, perr⟩
          have hev2 : List.Sublist ev2 [Ev.normalize, Ev.extract] := by
            have hif : List.Sublist
                (if isAtt then processAttachedFile orch.pipeline rawBytes fmtv name
                  else processEmailBody orch.pipeline rawBytes fmtv).2
                [Ev.normalize, Ev.extract] := by
              split
              · exact processAttachedFile_trace orch.pipeline rawBytes fmtv name
              · exact processEmailBody_trace orch.pipeline rawBytes fmtv
            rwa [hproc] at hif
          try dsimp only
          cases perr with
          | some e =>
              try dsimp only
              exact (((List.Sublist.refl [Ev.classify]).append hev2).trans
                ((List.Sublist.refl [Ev.classify, Ev.normalize, Ev.extract]).append
                  (List.nil_sublist
                    [Ev.fingerprint, Ev.assemble, Ev.dedupe, Ev.persist, Ev.link])))
          | none =>
              try dsimp only
              cases hbuilt : (if ff == ReadingFormat.html && pd.isSome then
                  BuildFromHTML orch.readingBuilder db actualSenderEmail webhookSubject
                    (some env) pd freshReadingId freshSourceId now
                else
                  BuildFromFile orch.readingBuilder db actualSenderEmail webhookSubject
                    (some env) fc ff name freshReadingId freshSourceId now) with
              | mk br ev3 =>
                have hev3 : List.Sublist ev3 [Ev.fingerprint, Ev.assemble] := by
                  have hif : List.Sublist
                      (if ff == ReadingFormat.html && pd.isSome then
                        BuildFromHTML orch.readingBuilder db actualSenderEmail webhookSubject
                          (some env) pd freshReadingId freshSourceId now
                      else
                        BuildFromFile orch.readingBuilder db actualSenderEmail webhookSubject
                          (some env) fc ff name freshReadingId freshSourceId now).2
                      [Ev.fingerprint, Ev.assemble] := by
                    split
                    · exact buildFromHTML_trace _ _ _ _ _ _ _ _ _
                    · exact buildFromFile_trace _ _ _ _ _ _ _ _ _ _ _
                  rwa [hbuilt] at hif
                rcases br with ⟨bres, db1⟩
                try dsimp only
                cases bres with
                | error e =>
                    try dsimp only
                    exact ((((List.Sublist.refl [Ev.classify]).append hev2).append hev3).trans
                      ((List.Sublist.refl [Ev.classify, Ev.normalize, Ev.extract,
                          Ev.fingerprint, Ev.assemble]).append
                        (List.nil_sublist [Ev.dedupe, Ev.persist, Ev.link])))
                | ok reading =>
                    try dsimp only
                    cases hpal : persistAndLink db1 reading fc ff userID now receivedAt with
                    | mk pres ev4 =>
                      have hev4 : List.Sublist ev4 [Ev.dedupe, Ev.persist, Ev.link] := by
                        have := persistAndLink_trace db1 reading fc ff userID now receivedAt
                        rwa [hpal] at this
                      cases pres with
                      | error e =>
                          try dsimp only
                          exact ((((List.Sublist.refl [Ev.classify]).append hev2).append
                            hev3).append hev4)
                      | ok w =>
                          rcases w with ⟨db2, rr⟩
                          try dsimp only
                          exact ((((List.Sublist.refl [Ev.classify]).append hev2).append
                            hev3).append hev4)


/-- Orchestrator used by the C8 counterexample: trivial converter and a
content processor that returns the raw input as main content. -/
def c8Orch : IngestionOrchestrator :=
  ⟨⟨absentConverter, fun raw _ => (some ⟨raw, "A summary.", "A Title"⟩, none)⟩,
    ⟨false, fun _ => none, fun _ => none⟩⟩

/-- Envelope used by the C8 counterexample: a plain-text body only. -/
def c8Env : Envelope := ⟨"", "Hello there. This is a body", [], []⟩

/-- C8 counterexample.  A concrete successful run produces the trace
classify, normalize, extract, fingerprint, assemble, dedupe, persist,
link: the assemble stage runs strictly before the dedupe stage, while
the claim asserts that dedupe precedes assemble. -/
theorem claim_C8_counterexample :
    (ProcessInboundEmail c8Orch ⟨[], [], []⟩ "11111111-1111-1111-1111-111111111111" "a@b.com"
        "Subj" c8Env "22222222-2222-2222-2222-222222222222"
        "33333333-3333-3333-3333-333333333333" 5 6).2 =
      [Ev.classify, Ev.normalize, Ev.extract, Ev.fingerprint, Ev.assemble, Ev.dedupe,
        Ev.persist, Ev.link] ∧
    List.indexOf Ev.assemble
        (ProcessInboundEmail c8Orch ⟨[], [], []⟩ "11111111-1111-1111-1111-111111111111"
          "a@b.com" "Subj" c8Env "22222222-2222-2222-2222-222222222222"
          "33333333-3333-3333-3333-333333333333" 5 6).2 <
      List.indexOf Ev.dedupe
        (ProcessInboundEmail c8Orch ⟨[], [], []⟩ "11111111-1111-1111-1111-111111111111"
          "a@b.com" "Subj" c8Env "22222222-2222-2222-2222-222222222222"
          "33333333-3333-3333-3333-333333333333" 5 6).2 := by
  decide

end Logos
